import Mathlib

/-!
Shallow embedding of the session/relay multiplayer server (src/server.js):
the data model, every message handler, and an event-step semantics over
whole-server states, followed by theorems settling the specification's
claims about the program.

JavaScript `Map` objects are embedded as association lists that keep
insertion order: `set` replaces an existing entry in place and appends a
fresh one at the end, `delete` removes the entry, iteration is list order.
Randomness (invite-code draws, session-id generation) is passed in as
explicit oracle data on the event.  Position and rotation payloads are
opaque tokens (`Nat`); message fields that may be absent in JSON are
`Option`s, and JavaScript falsy coercions (`x || d`) are modelled by
`orElseStr` / `coerceId`.
-/

-- ## Association-list helpers (JS Map semantics)

def aget {α β : Type} [DecidableEq α] : List (α × β) → α → Option β
  | [], _ => none
  | (k, v) :: t, k' => if k = k' then some v else aget t k'

def aset {α β : Type} [DecidableEq α] : List (α × β) → α → β → List (α × β)
  | [], k, v => [(k, v)]
  | (k', v') :: t, k, v => if k' = k then (k, v) :: t else (k', v') :: aset t k v

def adel {α β : Type} [DecidableEq α] : List (α × β) → α → List (α × β)
  | [], _ => []
  | (k', v') :: t, k => if k' = k then t else (k', v') :: adel t k

-- ## Data model

/-- A roster entry (`player` object in the source). -/
structure Player where
  playerId : Nat
  userId : Option String
  userName : String
  role : String
  position : Nat
  rotation : Nat
  wsId : Nat
deriving DecidableEq

/-- One collaboration session (`Session` object in the source). -/
structure Session where
  id : String
  inviteCode : String
  ownerId : Nat
  ownerUserId : Option String
  projectXml : String
  linkPermission : String
  sequenceNumber : Nat
  players : List (Nat × Player)
deriving DecidableEq

/-- Per-connection client state (`ClientState` in the source). -/
structure ClientState where
  playerId : Nat
  sessionId : Option String
deriving DecidableEq

/-- One entry of the `presence` array sent in `session_state`. -/
structure PresenceEntry where
  playerId : Nat
  userId : Option String
  userName : String
  role : String
  position : Nat
  rotation : Nat
deriving DecidableEq

/-- Server-to-client envelopes. -/
inductive OutMsg where
  | welcome (playerId : Nat) (players : List (Nat × Nat × Nat))
  | sessionCreated (inviteCode sessionId : String) (sequenceNumber : Nat) (playerId : Nat)
  | sessionState (projectXml : String) (sequenceNumber : Nat)
      (presence : List PresenceEntry) (role : String) (playerId : Nat)
  | playerJoinedLegacy (playerId : Nat) (position rotation : Nat)
  | playerJoined (playerId : Nat) (userId : Option String) (userName role : String)
      (position rotation : Nat)
  | playerMoved (playerId : Nat) (position rotation : Option Nat)
  | playerLeft (playerId : Nat)
  | pointerOut (playerId : Nat) (origin target : Option Nat)
  | furnitureMoveOut (playerId : Nat) (furnitureId : Option String)
      (position rotation planeOffset : Option Nat) (committed : Bool)
  | furnitureAddOut (playerId : Nat) (furnitureId variationPath : Option String)
      (position rotation planeOffset : Option Nat) (parentId : Option String)
  | furnitureRemoveOut (playerId : Nat) (furnitureId : Option String)
  | furnitureChangeVariationOut (playerId : Nat) (furnitureId variationPath : Option String)
  | materialChangeOut (playerId : Nat) (targetId targetType materialPath categoryId : Option String)
  | linkPermissionChanged (linkPermission : String)
  | sessionClosed (reason : String)
  | sessionError (code message : String)
deriving DecidableEq

/-- Client-to-server envelopes, including the malformed shapes the source
rejects before dispatch. -/
inductive InMsg where
  | badJson
  | noType
  | createSession (userId userName projectXml linkPermission : Option String)
  | joinSession (inviteCode userId userName : Option String)
  | leaveMsg
  | move (position rotation : Option Nat)
  | pointer (origin target : Option Nat)
  | furnitureMove (furnitureId : Option String) (position rotation planeOffset : Option Nat)
      (committed : Bool)
  | furnitureAdd (furnitureId variationPath : Option String)
      (position rotation planeOffset : Option Nat) (parentId : Option String)
  | furnitureRemove (furnitureId : Option String)
  | furnitureChangeVariation (furnitureId variationPath : Option String)
  | materialChange (targetId targetType materialPath categoryId : Option String)
  | updateState (projectXml : Option String)
  | linkPermissionChange (linkPermission : Option String)
  | unknownType (t : String)
deriving DecidableEq

/-- Whole-server state: the two registries, the set of open sockets, and the
list of envelopes written so far (socket id paired with payload). -/
structure ServerState where
  nextPlayerId : Nat
  sessions : List (String × Session)
  clients : List (Nat × ClientState)
  openWs : List Nat
  outbox : List (Nat × OutMsg)
deriving DecidableEq

-- ## Helpers from the source

def LEGACY_INVITE : String := "__legacy__"

/-- JS `x || d` on an optional string (absent, null and empty are falsy). -/
def orElseStr (x : Option String) (d : String) : String :=
  match x with
  | none => d
  | some s => if s = "" then d else s

/-- JS `x || null` on an optional string. -/
def coerceId (x : Option String) : Option String :=
  match x with
  | none => none
  | some s => if s = "" then none else some s

/-- The invite-code alphabet from `generateCode`. -/
def codeChars : List Char :=
  "ABCDEFGHJKLMNPQRSTUVWXYZabcdefghjkmnpqrstuvwxyz23456789".toList

/-- `generateCode`: six random draws from the alphabet; the draw values are
supplied as oracle data. -/
def generateCode (draws : List Nat) : String :=
  String.mk ((List.range 6).map fun i => codeChars.getD ((draws.getD i 0) % codeChars.length) 'A')

/-- `send`: write to a socket only when it is open. -/
def send (st : ServerState) (ws : Nat) (m : OutMsg) : ServerState :=
  if ws ∈ st.openWs then { st with outbox := st.outbox ++ [(ws, m)] } else st

/-- `sendError`: a `session_error` envelope to one socket. -/
def sendError (st : ServerState) (ws : Nat) (code message : String) : ServerState :=
  send st ws (.sessionError code message)

/-- `findSessionById`: scan registry values for a session id. -/
def findSessionById : List (String × Session) → String → Option Session
  | [], _ => none
  | (_, s) :: t, sid => if s.id = sid then some s else findSessionById t sid

/-- Update (in place) the first registry entry whose session id matches,
mirroring JS mutation of the object returned by `findSessionById`. -/
def updSessionById : List (String × Session) → String → (Session → Session) → List (String × Session)
  | [], _, _ => []
  | (c, s) :: t, sid, f => if s.id = sid then (c, f s) :: t else (c, s) :: updSessionById t sid f

/-- Delivery test used by `broadcastToSession`: skip the excluded socket and
closed sockets. -/
def wsEligible (excludeWs : Option Nat) (ows : List Nat) (w : Nat) : Bool :=
  (match excludeWs with
   | some e => decide (w ≠ e)
   | none => true) && decide (w ∈ ows)

/-- `broadcastToSession`: fan an envelope out to the roster in insertion
order, skipping the excluded socket and closed sockets. -/
def broadcastToSession (st : ServerState) (sess : Session) (excludeWs : Option Nat)
    (m : OutMsg) : ServerState :=
  { st with outbox := st.outbox ++ (sess.players.filterMap fun q =>
      if wsEligible excludeWs st.openWs q.2.wsId then some (q.2.wsId, m) else none) }

/-- `canEdit`. -/
def canEdit (role : String) : Bool :=
  role == "owner" || role == "co-author" || role == "guest-edit"

/-- `session.sequenceNumber++`, the sole mutation of the ordering counter. -/
def bumpSeq (s : Session) : Session :=
  { s with sequenceNumber := s.sequenceNumber + 1 }

-- ## Legacy auto-provisioning

/-- The legacy session looked up (or, when absent, the freshly allocated one)
at the top of `getOrCreateLegacySession`. -/
def legacyBase (st : ServerState) (client : ClientState) : Session :=
  match aget st.sessions LEGACY_INVITE with
  | some s => s
  | none =>
      { id := "sess_legacy", inviteCode := LEGACY_INVITE, ownerId := client.playerId,
        ownerUserId := none, projectXml := "", linkPermission := "edit",
        sequenceNumber := 0, players := [] }

/-- The roster entry `getOrCreateLegacySession` adds for the caller. -/
def legacyPlayer (ws : Nat) (client : ClientState) : Player :=
  { playerId := client.playerId, userId := none,
    userName := "Player " ++ toString client.playerId, role := "owner",
    position := 0, rotation := 0, wsId := ws }

/-- The legacy session after the caller has been added to its roster. -/
def legacyJoined (st : ServerState) (ws : Nat) (client : ClientState) : Session :=
  let b := legacyBase st client
  { b with players := aset b.players client.playerId (legacyPlayer ws client) }

/-- `getOrCreateLegacySession`: create the legacy session if absent, add the
caller with role owner, record the session reference, send the old-style
`welcome`, and notify the rest of the roster. -/
def getOrCreateLegacySession (st : ServerState) (ws : Nat) (client : ClientState) :
    ServerState × Session :=
  let session := legacyJoined st ws client
  let st1 := { st with
    sessions := aset st.sessions LEGACY_INVITE session,
    clients := aset st.clients ws { client with sessionId := some session.id } }
  let existing := session.players.filterMap fun q =>
    if q.2.playerId ≠ client.playerId then some (q.2.playerId, q.2.position, q.2.rotation)
    else none
  let st2 := send st1 ws (.welcome client.playerId existing)
  let st3 := broadcastToSession st2 session (some ws) (.playerJoinedLegacy client.playerId 0 0)
  (st3, session)

/-- `getSession`: explicit session reference first; otherwise either the
legacy fallback (when permitted) or an `INVALID_MESSAGE` error. -/
def getSession (st : ServerState) (ws : Nat) (client : ClientState) (autoJoinLegacy : Bool) :
    ServerState × Option Session :=
  match client.sessionId with
  | some sid => (st, findSessionById st.sessions sid)
  | none =>
      if autoJoinLegacy then
        let r := getOrCreateLegacySession st ws client
        (r.1, some r.2)
      else
        (sendError st ws "INVALID_MESSAGE" "Not in a session", none)

-- ## Session lifecycle handlers

/-- Role assigned in `handleJoinSession`: base role from the link permission,
overridden to owner when the supplied (truthy) identity matches the session
owner identity. -/
def joinRole (userId : Option String) (session : Session) : String :=
  let base := if session.linkPermission = "edit" then "guest-edit" else "guest-view"
  match userId with
  | some u => if u ≠ "" ∧ session.ownerUserId = some u then "owner" else base
  | none => base

/-- `handleJoinSession`. -/
def handleJoinSession (st : ServerState) (ws : Nat) (client : ClientState)
    (inviteCode userId userName : Option String) : ServerState :=
  if client.sessionId.isSome then sendError st ws "ALREADY_IN_SESSION" "Already in a session"
  else
    match inviteCode with
    | none => sendError st ws "NOT_FOUND" "Session not found"
    | some code =>
      match aget st.sessions code with
      | none => sendError st ws "NOT_FOUND" "Session not found"
      | some session =>
        if session.linkPermission = "none" then sendError st ws "NO_ACCESS" "Link disabled"
        else if 25 ≤ session.players.length then sendError st ws "SESSION_FULL" "Max 25 players"
        else
          let role := joinRole userId session
          let player : Player :=
            { playerId := client.playerId, userId := coerceId userId,
              userName := orElseStr userName "Guest", role := role,
              position := 0, rotation := 0, wsId := ws }
          let session' := { session with players := aset session.players client.playerId player }
          let st1 := { st with
            sessions := aset st.sessions code session',
            clients := aset st.clients ws { client with sessionId := some session.id } }
          let presence := session'.players.map fun q =>
            PresenceEntry.mk q.2.playerId q.2.userId q.2.userName q.2.role q.2.position q.2.rotation
          let st2 := send st1 ws
            (.sessionState session.projectXml session.sequenceNumber presence role client.playerId)
          broadcastToSession st2 session' (some ws)
            (.playerJoined client.playerId player.userId player.userName role 0 0)

/-- The dev-mode scan at the top of `handleCreateSession`: the first
non-legacy session with a non-empty roster, if any. -/
def devJoinTarget : List (String × Session) → Option String
  | [] => none
  | (code, s) :: t =>
      if code ≠ LEGACY_INVITE ∧ 0 < s.players.length then some code else devJoinTarget t

/-- `handleCreateSession`; `draws` and `sid` are the oracle data standing for
`generateCode`'s random draws and the generated session id. -/
def handleCreateSession (st : ServerState) (ws : Nat) (client : ClientState)
    (userId userName projectXml linkPermission : Option String)
    (draws : List Nat) (sid : String) : ServerState :=
  if client.sessionId.isSome then sendError st ws "ALREADY_IN_SESSION" "Already in a session"
  else
    match devJoinTarget st.sessions with
    | some code => handleJoinSession st ws client (some code) userId userName
    | none =>
      let inviteCode := generateCode draws
      let permission := orElseStr linkPermission "edit"
      let player : Player :=
        { playerId := client.playerId, userId := coerceId userId,
          userName := orElseStr userName "Owner", role := "owner",
          position := 0, rotation := 0, wsId := ws }
      let session : Session :=
        { id := sid, inviteCode := inviteCode, ownerId := client.playerId,
          ownerUserId := coerceId userId, projectXml := orElseStr projectXml "",
          linkPermission := permission, sequenceNumber := 0,
          players := [(client.playerId, player)] }
      let st1 := { st with
        sessions := aset st.sessions inviteCode session,
        clients := aset st.clients ws { client with sessionId := some sid } }
      send st1 ws (.sessionCreated inviteCode sid 0 client.playerId)

/-- The loop in `leaveSession` that nulls the session reference of every
remaining roster member. -/
def clearRefs (l : List (Nat × Player)) (st : ServerState) : ServerState :=
  l.foldl (fun acc q =>
    match aget acc.clients q.2.wsId with
    | some c => { acc with clients := aset acc.clients q.2.wsId { c with sessionId := none } }
    | none => acc) st

/-- `leaveSession`: drop the leaver from the roster; if the leaver was the
owner, close the whole session, otherwise announce the departure; finally
garbage-collect an empty legacy session. -/
def leaveSession (st : ServerState) (ws : Nat) (client : ClientState) : ServerState :=
  match client.sessionId with
  | none => st
  | some sid =>
    let session? := findSessionById st.sessions sid
    let st0 := { st with clients := aset st.clients ws { client with sessionId := none } }
    match session? with
    | none => st0
    | some session =>
      let remaining := adel session.players client.playerId
      let session' := { session with players := remaining }
      let st1 := { st0 with
        sessions := updSessionById st0.sessions sid fun s =>
          { s with players := adel s.players client.playerId } }
      let st2 :=
        if client.playerId = session.ownerId then
          let stB := broadcastToSession st1 session' none (.sessionClosed "owner_left")
          let stC := clearRefs remaining stB
          { stC with sessions := adel stC.sessions session.inviteCode }
        else
          broadcastToSession st1 session' (some ws) (.playerLeft client.playerId)
      if session.inviteCode = LEGACY_INVITE ∧ remaining = [] then
        { st2 with sessions := adel st2.sessions LEGACY_INVITE }
      else st2

-- ## Relay handlers

/-- `handleMove`. -/
def handleMove (st : ServerState) (ws : Nat) (client : ClientState)
    (position rotation : Option Nat) : ServerState :=
  match getSession st ws client true with
  | (st1, none) => st1
  | (st1, some session) =>
    let st2 := { st1 with
      sessions := updSessionById st1.sessions session.id fun s =>
        { s with players :=
            match aget s.players client.playerId with
            | some p => aset s.players client.playerId
                { p with position := position.getD p.position,
                         rotation := rotation.getD p.rotation }
            | none => s.players } }
    broadcastToSession st2 session (some ws) (.playerMoved client.playerId position rotation)

/-- `handlePointer`. -/
def handlePointer (st : ServerState) (ws : Nat) (client : ClientState)
    (origin target : Option Nat) : ServerState :=
  match getSession st ws client true with
  | (st1, none) => st1
  | (st1, some session) =>
    broadcastToSession st1 session (some ws) (.pointerOut client.playerId origin target)

/-- `handleFurnitureMove`: authorization gate, then a sequence-number bump
only for committed moves, then the relay. -/
def handleFurnitureMove (st : ServerState) (ws : Nat) (client : ClientState)
    (furnitureId : Option String) (position rotation planeOffset : Option Nat)
    (committed : Bool) : ServerState :=
  match getSession st ws client true with
  | (st1, none) => st1
  | (st1, some session) =>
    match aget session.players client.playerId with
    | none => st1
    | some p =>
      if canEdit p.role then
        let st2 :=
          if committed then
            { st1 with sessions := updSessionById st1.sessions session.id bumpSeq }
          else st1
        broadcastToSession st2 session (some ws)
          (.furnitureMoveOut client.playerId furnitureId position rotation planeOffset committed)
      else st1

/-- `handleFurnitureAdd`. -/
def handleFurnitureAdd (st : ServerState) (ws : Nat) (client : ClientState)
    (furnitureId variationPath : Option String) (position rotation planeOffset : Option Nat)
    (parentId : Option String) : ServerState :=
  match getSession st ws client true with
  | (st1, none) => st1
  | (st1, some session) =>
    match aget session.players client.playerId with
    | none => st1
    | some p =>
      if canEdit p.role then
        let st2 := { st1 with sessions := updSessionById st1.sessions session.id bumpSeq }
        broadcastToSession st2 session (some ws)
          (.furnitureAddOut client.playerId furnitureId variationPath position rotation
            planeOffset parentId)
      else st1

/-- `handleFurnitureRemove`. -/
def handleFurnitureRemove (st : ServerState) (ws : Nat) (client : ClientState)
    (furnitureId : Option String) : ServerState :=
  match getSession st ws client true with
  | (st1, none) => st1
  | (st1, some session) =>
    match aget session.players client.playerId with
    | none => st1
    | some p =>
      if canEdit p.role then
        let st2 := { st1 with sessions := updSessionById st1.sessions session.id bumpSeq }
        broadcastToSession st2 session (some ws)
          (.furnitureRemoveOut client.playerId furnitureId)
      else st1

/-- `handleFurnitureChangeVariation`. -/
def handleFurnitureChangeVariation (st : ServerState) (ws : Nat) (client : ClientState)
    (furnitureId variationPath : Option String) : ServerState :=
  match getSession st ws client true with
  | (st1, none) => st1
  | (st1, some session) =>
    match aget session.players client.playerId with
    | none => st1
    | some p =>
      if canEdit p.role then
        let st2 := { st1 with sessions := updSessionById st1.sessions session.id bumpSeq }
        broadcastToSession st2 session (some ws)
          (.furnitureChangeVariationOut client.playerId furnitureId variationPath)
      else st1

/-- `handleMaterialChange`. -/
def handleMaterialChange (st : ServerState) (ws : Nat) (client : ClientState)
    (targetId targetType materialPath categoryId : Option String) : ServerState :=
  match getSession st ws client true with
  | (st1, none) => st1
  | (st1, some session) =>
    match aget session.players client.playerId with
    | none => st1
    | some p =>
      if canEdit p.role then
        let st2 := { st1 with sessions := updSessionById st1.sessions session.id bumpSeq }
        broadcastToSession st2 session (some ws)
          (.materialChangeOut client.playerId targetId targetType materialPath
            (coerceId categoryId))
      else st1

/-- `handleUpdateState`: explicit session required, owner-id check, then the
falsy-guarded overwrite of the project blob. -/
def handleUpdateState (st : ServerState) (ws : Nat) (client : ClientState)
    (projectXml : Option String) : ServerState :=
  match getSession st ws client false with
  | (st1, none) => st1
  | (st1, some session) =>
    if client.playerId ≠ session.ownerId then st1
    else
      { st1 with sessions := updSessionById st1.sessions session.id fun s =>
          { s with projectXml := orElseStr projectXml s.projectXml } }

/-- `handleLinkPermissionChange`: explicit session required, owner-id check,
falsy default to edit, broadcast excluding no one. -/
def handleLinkPermissionChange (st : ServerState) (ws : Nat) (client : ClientState)
    (linkPermission : Option String) : ServerState :=
  match getSession st ws client false with
  | (st1, none) => st1
  | (st1, some session) =>
    if client.playerId ≠ session.ownerId then st1
    else
      let permission := orElseStr linkPermission "edit"
      let st2 := { st1 with sessions := updSessionById st1.sessions session.id fun s =>
          { s with linkPermission := permission } }
      broadcastToSession st2 session none (.linkPermissionChanged permission)

-- ## Dispatch and event semantics

/-- The `message` listener: malformed-envelope errors, then dispatch on the
declared type; unknown types are dropped. -/
def msgStep (st : ServerState) (ws : Nat) (m : InMsg) (draws : List Nat) (gsid : String) :
    ServerState :=
  match m with
  | .badJson => sendError st ws "INVALID_MESSAGE" "Bad JSON"
  | .noType => sendError st ws "INVALID_MESSAGE" "Missing type"
  | m' =>
    match aget st.clients ws with
    | none => st
    | some client =>
      match m' with
      | .createSession a b c d => handleCreateSession st ws client a b c d draws gsid
      | .joinSession a b c => handleJoinSession st ws client a b c
      | .leaveMsg => leaveSession st ws client
      | .move p r => handleMove st ws client p r
      | .pointer o t => handlePointer st ws client o t
      | .furnitureMove f p r pl c => handleFurnitureMove st ws client f p r pl c
      | .furnitureAdd f v p r pl pa => handleFurnitureAdd st ws client f v p r pl pa
      | .furnitureRemove f => handleFurnitureRemove st ws client f
      | .furnitureChangeVariation f v => handleFurnitureChangeVariation st ws client f v
      | .materialChange a b c d => handleMaterialChange st ws client a b c d
      | .updateState p => handleUpdateState st ws client p
      | .linkPermissionChange l => handleLinkPermissionChange st ws client l
      | _ => st

/-- Transport-level events: connection open, one inbound envelope (with its
randomness oracle), connection close. -/
inductive Event where
  | connect (ws : Nat)
  | message (ws : Nat) (m : InMsg) (draws : List Nat) (gsid : String)
  | disconnect (ws : Nat)

/-- One event of the single-threaded, run-to-completion server loop. -/
def step (st : ServerState) (e : Event) : ServerState :=
  match e with
  | .connect ws =>
      { st with
        nextPlayerId := st.nextPlayerId + 1,
        clients := aset st.clients ws { playerId := st.nextPlayerId, sessionId := none },
        openWs := ws :: st.openWs }
  | .message ws m draws gsid => msgStep st ws m draws gsid
  | .disconnect ws =>
      let st1 := { st with openWs := st.openWs.erase ws }
      let st2 :=
        match aget st1.clients ws with
        | some c => if c.sessionId.isSome then leaveSession st1 ws c else st1
        | none => st1
      { st2 with clients := adel st2.clients ws }

/-- The empty server at process start. -/
def initState : ServerState :=
  { nextPlayerId := 1, sessions := [], clients := [], openWs := [], outbox := [] }

/-- Run a trace of events from the initial state. -/
def run (es : List Event) : ServerState :=
  es.foldl step initState

-- ## Concrete traces used to refute claims

/-- Trace: client 1 creates a session (code draws give "ABCDEF"), then
client 2 — in no session — also sends `create_session` (draws would give
"GHJKLM"). -/
def devTrace : List Event :=
  [ .connect 1,
    .message 1 (.createSession none none none none) [0,1,2,3,4,5] "sessA",
    .connect 2,
    .message 2 (.createSession none none none none) [6,7,8,9,10,11] "sessB" ]

/-- Trace: 26 clients connect and each sends a `move` with no explicit
session, so each is auto-provisioned into the legacy session. -/
def legacyFloodTrace : List Event :=
  ((List.range 26).map fun i => Event.connect (i+1)) ++
  ((List.range 26).map fun i => Event.message (i+1) (.move none none) [] "")

/-- Trace: clients 1 and 2 both auto-join the legacy session via `move`;
then client 1 — the legacy session's `ownerId` — leaves while client 2 is
still on the roster. -/
def legacyOwnerLeaveTrace : List Event :=
  [ .connect 1, .connect 2,
    .message 1 (.move none none) [] "",
    .message 2 (.move none none) [] "",
    .message 1 .leaveMsg [] "" ]

/-- C1 (counterexample): client 2 is in no session, yet its `create_session`
does not allocate a brand-new session and does not get `session_created`:
the dev-mode scan auto-joins it into client 1's existing session instead.
After the trace the registry holds only "ABCDEF" (with both players on its
roster), no session exists under the code generated from client 2's draws,
and the only envelope client 2 ever received is a `session_state` join
snapshot. -/
theorem createSession_dev_autojoin_cex :
    aget (run (devTrace.take 3)).clients 2 = some { playerId := 2, sessionId := none } ∧
    (run devTrace).sessions.map Prod.fst = ["ABCDEF"] ∧
    aget (run devTrace).sessions (generateCode [6,7,8,9,10,11]) = none ∧
    ((run devTrace).outbox.filter fun q => q.1 = 2) =
      [(2, OutMsg.sessionState "" 0
        [⟨1, none, "Owner", "owner", 0, 0⟩, ⟨2, none, "Guest", "guest-edit", 0, 0⟩]
        "guest-edit" 2)] := by
  decide

/-- C2 (counterexample): the legacy auto-provisioning path performs no
capacity check, so after 26 sessionless clients each send `move`, the legacy
session's roster holds 26 members — a reachable state violating
`roster.size ≤ 25`. -/
theorem roster_bound_legacy_cex :
    (aget (run legacyFloodTrace).sessions LEGACY_INVITE).map (fun s => s.players.length) =
      some 26 ∧ ¬ (26 ≤ 25) := by
  decide

/-- C5 (counterexample): the legacy session is not removed "exactly when its
roster returns to empty" — when client 1 (the legacy session's `ownerId`)
leaves, the owner-left branch deletes the legacy session although client 2
is still on its roster (roster was `[1, 2]` immediately before the leave). -/
theorem legacy_removed_nonempty_cex :
    (aget (run (legacyOwnerLeaveTrace.take 4)).sessions LEGACY_INVITE).map
        (fun s => s.players.map Prod.fst) = some [1, 2] ∧
    aget (run legacyOwnerLeaveTrace).sessions LEGACY_INVITE = none ∧
    aget (run legacyOwnerLeaveTrace).clients 2 = some { playerId := 2, sessionId := none } := by
  decide

-- ## Basic association-list lemmas

theorem aget_aset_self {α β : Type} [DecidableEq α] (l : List (α × β)) (k : α) (v : β) :
    aget (aset l k v) k = some v := by
  induction l with
  | nil => simp [aset, aget]
  | cons h t ih =>
      obtain ⟨k', v'⟩ := h
      by_cases hk : k' = k
      · subst hk; simp [aset, aget]
      · simp [aset, aget, hk, ih]

theorem aget_aset_ne {α β : Type} [DecidableEq α] (l : List (α × β)) (k c : α) (v : β)
    (h : k ≠ c) : aget (aset l k v) c = aget l c := by
  induction l with
  | nil => simp [aset, aget, h]
  | cons hd t ih =>
      obtain ⟨k', v'⟩ := hd
      by_cases hk : k' = k
      · subst hk; simp [aset, aget, h]
      · simp [aset, aget, hk, ih]

theorem aget_mem {α β : Type} [DecidableEq α] {l : List (α × β)} {k : α} {v : β}
    (h : aget l k = some v) : (k, v) ∈ l := by
  induction l with
  | nil => simp [aget] at h
  | cons hd t ih =>
      obtain ⟨k', v'⟩ := hd
      by_cases hk : k' = k
      · subst hk
        simp [aget] at h
        simp [h]
      · simp [aget, hk] at h
        exact List.mem_cons_of_mem _ (ih h)

theorem aget_none_not_mem {α β : Type} [DecidableEq α] {l : List (α × β)} {k : α}
    (h : aget l k = none) : ∀ v, (k, v) ∉ l := by
  induction l with
  | nil => simp
  | cons hd t ih =>
      obtain ⟨k', v'⟩ := hd
      by_cases hk : k' = k
      · subst hk; simp [aget] at h
      · simp [aget, hk] at h
        intro v hv
        rcases List.mem_cons.mp hv with h1 | h1
        · exact hk (congrArg Prod.fst h1).symm
        · exact ih h v h1

theorem aget_adel {α β : Type} [DecidableEq α] (l : List (α × β)) (k c : α)
    (hk : (l.map Prod.fst).Nodup) :
    aget (adel l k) c = if c = k then none else aget l c := by
  induction l with
  | nil => simp [adel, aget]
  | cons hd t ih =>
      obtain ⟨k', v'⟩ := hd
      simp only [List.map_cons, List.nodup_cons] at hk
      by_cases hkk : k' = k
      · subst hkk
        simp only [adel, if_pos rfl]
        by_cases hck : c = k'
        · subst hck
          simp only [if_pos rfl]
          cases hagt : aget t c with
          | none => exact hagt
          | some w => exact absurd (List.mem_map_of_mem Prod.fst (aget_mem hagt)) hk.1
        · simp [aget, hck, Ne.symm hck]
      · simp only [adel, if_neg hkk]
        by_cases hck : k' = c
        · subst hck
          simp [aget, hkk]
        · simp [aget, hck, ih hk.2]

theorem mem_aset {α β : Type} [DecidableEq α] {l : List (α × β)} {k : α} {v : β} {p : α × β}
    (h : p ∈ aset l k v) : p ∈ l ∨ p = (k, v) := by
  induction l with
  | nil => simp [aset] at h; simp [h]
  | cons hd t ih =>
      obtain ⟨k', v'⟩ := hd
      by_cases hk : k' = k
      · subst hk
        simp only [aset, if_pos rfl] at h
        rcases List.mem_cons.mp h with h1 | h1
        · exact Or.inr h1
        · exact Or.inl (List.mem_cons_of_mem _ h1)
      · simp only [aset, if_neg hk] at h
        rcases List.mem_cons.mp h with h1 | h1
        · exact Or.inl (by simp [h1])
        · rcases ih h1 with h2 | h2
          · exact Or.inl (List.mem_cons_of_mem _ h2)
          · exact Or.inr h2

theorem mem_adel {α β : Type} [DecidableEq α] {l : List (α × β)} {k : α} {p : α × β}
    (h : p ∈ adel l k) : p ∈ l := by
  induction l with
  | nil => simp [adel] at h
  | cons hd t ih =>
      obtain ⟨k', v'⟩ := hd
      by_cases hk : k' = k
      · subst hk
        simp only [adel, if_pos rfl] at h
        exact List.mem_cons_of_mem _ h
      · simp only [adel, if_neg hk] at h
        rcases List.mem_cons.mp h with h1 | h1
        · exact h1 ▸ List.mem_cons_self _ _
        · exact List.mem_cons_of_mem _ (ih h1)

theorem length_aset_of_isSome {α β : Type} [DecidableEq α] (l : List (α × β)) (k : α) (v : β)
    (h : (aget l k).isSome) : (aset l k v).length = l.length := by
  induction l with
  | nil => simp [aget] at h
  | cons hd t ih =>
      obtain ⟨k', v'⟩ := hd
      by_cases hk : k' = k
      · subst hk; simp [aset]
      · simp only [aget, if_neg hk] at h
        simp [aset, hk, ih h]

theorem length_aset_le {α β : Type} [DecidableEq α] (l : List (α × β)) (k : α) (v : β) :
    (aset l k v).length ≤ l.length + 1 := by
  induction l with
  | nil => simp [aset]
  | cons hd t ih =>
      obtain ⟨k', v'⟩ := hd
      by_cases hk : k' = k
      · subst hk; simp [aset]
      · simp only [aset, if_neg hk, List.length_cons]
        omega

-- ## Lemmas about `updSessionById`

theorem keys_upd (l : List (String × Session)) (sid : String) (f : Session → Session) :
    (updSessionById l sid f).map Prod.fst = l.map Prod.fst := by
  induction l with
  | nil => simp [updSessionById]
  | cons hd t ih =>
      obtain ⟨c, s⟩ := hd
      by_cases hs : s.id = sid
      · simp [updSessionById, hs]
      · simp [updSessionById, hs, ih]

theorem mem_upd {l : List (String × Session)} {sid : String} {f : Session → Session}
    {p : String × Session} (h : p ∈ updSessionById l sid f) :
    p ∈ l ∨ ∃ q, q ∈ l ∧ p = (q.1, f q.2) := by
  induction l with
  | nil => simp [updSessionById] at h
  | cons hd t ih =>
      obtain ⟨c, s⟩ := hd
      by_cases hs : s.id = sid
      · simp only [updSessionById, if_pos hs] at h
        rcases List.mem_cons.mp h with h1 | h1
        · exact Or.inr ⟨(c, s), List.mem_cons_self _ _, h1⟩
        · exact Or.inl (List.mem_cons_of_mem _ h1)
      · simp only [updSessionById, if_neg hs] at h
        rcases List.mem_cons.mp h with h1 | h1
        · exact Or.inl (by simp [h1])
        · rcases ih h1 with h2 | ⟨q, hq, hpq⟩
          · exact Or.inl (List.mem_cons_of_mem _ h2)
          · exact Or.inr ⟨q, List.mem_cons_of_mem _ hq, hpq⟩

theorem aget_upd (l : List (String × Session)) (sid : String) (f : Session → Session) (c : String)
    (hids : (l.map fun p => p.2.id).Nodup) :
    aget (updSessionById l sid f) c = (aget l c).map fun s => if s.id = sid then f s else s := by
  induction l with
  | nil => simp [updSessionById, aget]
  | cons hd t ih =>
      obtain ⟨k, s⟩ := hd
      simp only [List.map_cons, List.nodup_cons] at hids
      by_cases hs : s.id = sid
      · simp only [updSessionById, if_pos hs]
        by_cases hk : k = c
        · subst hk; simp [aget, hs]
        · simp only [aget, if_neg hk]
          cases hagt : aget t c with
          | none => simp
          | some w =>
              have hw : w.id ≠ sid := by
                intro hwid
                exact hids.1 (hs ▸ hwid ▸
                  List.mem_map_of_mem (fun p => p.2.id) (aget_mem hagt))
              simp [hw]
      · simp only [updSessionById, if_neg hs]
        by_cases hk : k = c
        · subst hk; simp [aget, hs]
        · simp [aget, if_neg hk, ih hids.2]

theorem aget_eq_of_mem_nodup {α β : Type} [DecidableEq α] {l : List (α × β)} {k : α} {v : β}
    (hk : (l.map Prod.fst).Nodup) (h : (k, v) ∈ l) : aget l k = some v := by
  induction l with
  | nil => simp at h
  | cons hd t ih =>
      obtain ⟨k', v'⟩ := hd
      simp only [List.map_cons, List.nodup_cons] at hk
      rcases List.mem_cons.mp h with h1 | h1
      · obtain ⟨hk1, hv1⟩ := Prod.mk.injEq .. ▸ h1
        simp [aget, hk1.symm, hv1]
      · have hne : k' ≠ k := by
          intro he
          exact hk.1 (he ▸ List.mem_map_of_mem Prod.fst h1)
        simp [aget, hne, ih hk.2 h1]

theorem ids_aset_of_aget {l : List (String × Session)} {k : String} {w v : Session}
    (h : aget l k = some w) (hid : v.id = w.id) :
    ((aset l k v).map fun p => p.2.id) = l.map fun p => p.2.id := by
  induction l with
  | nil => simp [aget] at h
  | cons hd t ih =>
      obtain ⟨k', v'⟩ := hd
      by_cases hk : k' = k
      · subst hk
        simp [aget] at h
        simp [aset, hid, h]
      · simp only [aget, if_neg hk] at h
        simp [aset, hk, ih h]

theorem keys_aset_of_aget {α β : Type} [DecidableEq α] {l : List (α × β)} {k : α} {w : β}
    (v : β) (h : aget l k = some w) :
    (aset l k v).map Prod.fst = l.map Prod.fst := by
  induction l with
  | nil => simp [aget] at h
  | cons hd t ih =>
      obtain ⟨k', v'⟩ := hd
      by_cases hk : k' = k
      · subst hk; simp [aset]
      · simp only [aget, if_neg hk] at h
        simp [aset, hk, ih h]

theorem aset_append_of_aget_none {α β : Type} [DecidableEq α] {l : List (α × β)} {k : α}
    (v : β) (h : aget l k = none) : aset l k v = l ++ [(k, v)] := by
  induction l with
  | nil => simp [aset]
  | cons hd t ih =>
      obtain ⟨k', v'⟩ := hd
      by_cases hk : k' = k
      · subst hk; simp [aget] at h
      · simp only [aget, if_neg hk] at h
        simp [aset, hk, ih h]

-- ## State-component lemmas for the output primitives

theorem send_sessions (st : ServerState) (ws : Nat) (m : OutMsg) :
    (send st ws m).sessions = st.sessions := by
  unfold send; split <;> rfl

theorem send_clients (st : ServerState) (ws : Nat) (m : OutMsg) :
    (send st ws m).clients = st.clients := by
  unfold send; split <;> rfl

theorem send_openWs (st : ServerState) (ws : Nat) (m : OutMsg) :
    (send st ws m).openWs = st.openWs := by
  unfold send; split <;> rfl

theorem send_outbox (st : ServerState) (ws : Nat) (m : OutMsg) :
    (send st ws m).outbox =
      if ws ∈ st.openWs then st.outbox ++ [(ws, m)] else st.outbox := by
  unfold send; split <;> simp_all

theorem sendError_sessions (st : ServerState) (ws : Nat) (c msg : String) :
    (sendError st ws c msg).sessions = st.sessions := send_sessions ..

theorem sendError_clients (st : ServerState) (ws : Nat) (c msg : String) :
    (sendError st ws c msg).clients = st.clients := send_clients ..

theorem sendError_outbox (st : ServerState) (ws : Nat) (c msg : String) :
    (sendError st ws c msg).outbox =
      if ws ∈ st.openWs then st.outbox ++ [(ws, OutMsg.sessionError c msg)] else st.outbox :=
  send_outbox ..

theorem broadcast_sessions (st : ServerState) (sess : Session) (e : Option Nat) (m : OutMsg) :
    (broadcastToSession st sess e m).sessions = st.sessions := rfl

theorem broadcast_clients (st : ServerState) (sess : Session) (e : Option Nat) (m : OutMsg) :
    (broadcastToSession st sess e m).clients = st.clients := rfl

theorem broadcast_openWs (st : ServerState) (sess : Session) (e : Option Nat) (m : OutMsg) :
    (broadcastToSession st sess e m).openWs = st.openWs := rfl

theorem mem_broadcast_outbox (st : ServerState) (sess : Session) (e : Option Nat) (m : OutMsg)
    {q : Nat × Player} (hq : q ∈ sess.players)
    (helig : wsEligible e st.openWs q.2.wsId = true) :
    (q.2.wsId, m) ∈ (broadcastToSession st sess e m).outbox := by
  unfold broadcastToSession
  simp only [List.mem_append]
  right
  exact List.mem_filterMap.mpr ⟨q, hq, by simp [helig]⟩

theorem clearRefs_sessions (l : List (Nat × Player)) (st : ServerState) :
    (clearRefs l st).sessions = st.sessions := by
  induction l generalizing st with
  | nil => rfl
  | cons hd t ih =>
      show (clearRefs t _).sessions = _
      cases h : aget st.clients hd.2.wsId with
      | none => simp only [clearRefs, List.foldl_cons, h]; exact ih st
      | some c => simp only [clearRefs, List.foldl_cons, h]; exact ih _

theorem clearRefs_outbox (l : List (Nat × Player)) (st : ServerState) :
    (clearRefs l st).outbox = st.outbox := by
  induction l generalizing st with
  | nil => rfl
  | cons hd t ih =>
      show (clearRefs t _).outbox = _
      cases h : aget st.clients hd.2.wsId with
      | none => simp only [clearRefs, List.foldl_cons, h]; exact ih st
      | some c => simp only [clearRefs, List.foldl_cons, h]; exact ih _

/-- A socket is "cleared" in a state when its client record, if any, holds no
session reference. -/
def ClearedAt (w : Nat) (st : ServerState) : Prop :=
  ∀ c, aget st.clients w = some c → c.sessionId = none

theorem clearRefs_preserves_cleared (l : List (Nat × Player)) (st : ServerState) (w : Nat)
    (h : ClearedAt w st) : ClearedAt w (clearRefs l st) := by
  induction l generalizing st with
  | nil => exact h
  | cons hd t ih =>
      show ClearedAt w (clearRefs t _)
      cases hg : aget st.clients hd.2.wsId with
      | none => simp only [clearRefs, List.foldl_cons, hg]; exact ih st h
      | some c =>
          simp only [clearRefs, List.foldl_cons, hg]
          apply ih
          intro c' hc'
          by_cases hw : hd.2.wsId = w
          · subst hw
            rw [aget_aset_self] at hc'
            cases hc'; rfl
          · rw [aget_aset_ne _ _ _ _ hw] at hc'
            exact h c' hc'

theorem clearRefs_clears (l : List (Nat × Player)) (st : ServerState)
    {q : Nat × Player} (hq : q ∈ l) : ClearedAt q.2.wsId (clearRefs l st) := by
  induction l generalizing st with
  | nil => simp at hq
  | cons hd t ih =>
      rcases List.mem_cons.mp hq with h1 | h1
      · subst h1
        show ClearedAt q.2.wsId (clearRefs t _)
        cases hg : aget st.clients q.2.wsId with
        | none =>
            simp only [clearRefs, List.foldl_cons, hg]
            apply clearRefs_preserves_cleared
            intro c hc
            rw [hg] at hc; cases hc
        | some c =>
            simp only [clearRefs, List.foldl_cons, hg]
            apply clearRefs_preserves_cleared
            intro c' hc'
            rw [aget_aset_self] at hc'
            cases hc'; rfl
      · show ClearedAt q.2.wsId (clearRefs t _)
        cases hg : aget st.clients hd.2.wsId with
        | none => simp only [clearRefs, List.foldl_cons, hg]; exact ih st h1
        | some c => simp only [clearRefs, List.foldl_cons, hg]; exact ih _ h1

-- ## Lemmas about session lookup and the legacy path

theorem findSessionById_id {l : List (String × Session)} {sid : String} {s : Session}
    (h : findSessionById l sid = some s) : s.id = sid := by
  induction l with
  | nil => simp [findSessionById] at h
  | cons hd t ih =>
      obtain ⟨c, s'⟩ := hd
      by_cases hs : s'.id = sid
      · simp only [findSessionById, if_pos hs, Option.some.injEq] at h
        exact h ▸ hs
      · simp only [findSessionById, if_neg hs] at h
        exact ih h

theorem findSessionById_mem {l : List (String × Session)} {sid : String} {s : Session}
    (h : findSessionById l sid = some s) : ∃ c, (c, s) ∈ l := by
  induction l with
  | nil => simp [findSessionById] at h
  | cons hd t ih =>
      obtain ⟨c, s'⟩ := hd
      by_cases hs : s'.id = sid
      · simp only [findSessionById, if_pos hs, Option.some.injEq] at h
        exact ⟨c, by simp [h]⟩
      · simp only [findSessionById, if_neg hs] at h
        obtain ⟨c', hc'⟩ := ih h
        exact ⟨c', List.mem_cons_of_mem _ hc'⟩

theorem findSessionById_none {l : List (String × Session)} {sid : String}
    (h : ∀ p ∈ l, p.2.id ≠ sid) : findSessionById l sid = none := by
  induction l with
  | nil => rfl
  | cons hd t ih =>
      obtain ⟨c, s'⟩ := hd
      have hne := h (c, s') (List.mem_cons_self _ _)
      simp only [findSessionById, if_neg hne]
      exact ih fun p hp => h p (List.mem_cons_of_mem _ hp)

theorem generateCode_ne_legacy (draws : List Nat) : generateCode draws ≠ LEGACY_INVITE := by
  intro h
  have hlen := congrArg (fun s => s.data.length) h
  simp [generateCode, LEGACY_INVITE, String.mk] at hlen

theorem generateCode_length (draws : List Nat) : (generateCode draws).length = 6 := by
  simp [generateCode, String.length, String.mk]

theorem legacyJoined_id (st : ServerState) (ws : Nat) (client : ClientState) :
    (legacyJoined st ws client).id = (legacyBase st client).id := rfl

theorem legacyJoined_players_self (st : ServerState) (ws : Nat) (client : ClientState) :
    aget (legacyJoined st ws client).players client.playerId = some (legacyPlayer ws client) :=
  aget_aset_self ..

theorem legacy_fst_sessions (st : ServerState) (ws : Nat) (client : ClientState) :
    (getOrCreateLegacySession st ws client).1.sessions =
      aset st.sessions LEGACY_INVITE (legacyJoined st ws client) := by
  simp [getOrCreateLegacySession, broadcast_sessions, send_sessions]

theorem legacy_fst_clients (st : ServerState) (ws : Nat) (client : ClientState) :
    (getOrCreateLegacySession st ws client).1.clients =
      aset st.clients ws { client with sessionId := some (legacyJoined st ws client).id } := by
  simp [getOrCreateLegacySession, broadcast_clients, send_clients]

theorem legacy_fst_openWs (st : ServerState) (ws : Nat) (client : ClientState) :
    (getOrCreateLegacySession st ws client).1.openWs = st.openWs := by
  simp [getOrCreateLegacySession, broadcast_openWs, send_openWs]

theorem legacy_snd (st : ServerState) (ws : Nat) (client : ClientState) :
    (getOrCreateLegacySession st ws client).2 = legacyJoined st ws client := rfl

-- ## Well-formedness of the session registry

/-- Registry well-formedness, maintained by the real server: invite codes are
the keys and are distinct, session ids are distinct, and only the legacy
entry carries the sentinel legacy session id. -/
def SessionsWF (l : List (String × Session)) : Prop :=
  (l.map Prod.fst).Nodup ∧
  (∀ p ∈ l, p.2.inviteCode = p.1) ∧
  (l.map fun p => p.2.id).Nodup ∧
  (∀ p ∈ l, p.2.id = "sess_legacy" → p.1 = LEGACY_INVITE)

theorem legacy_aset_ids_nodup (st : ServerState) (ws : Nat) (client : ClientState)
    (hids : (st.sessions.map fun p => p.2.id).Nodup)
    (h4 : ∀ p ∈ st.sessions, p.2.id = "sess_legacy" → p.1 = LEGACY_INVITE) :
    ((aset st.sessions LEGACY_INVITE (legacyJoined st ws client)).map fun p => p.2.id).Nodup := by
  cases hleg : aget st.sessions LEGACY_INVITE with
  | some w =>
      rw [ids_aset_of_aget hleg (by simp [legacyJoined, legacyBase, hleg])]
      exact hids
  | none =>
      rw [aset_append_of_aget_none _ hleg]
      have hid : (legacyJoined st ws client).id = "sess_legacy" := by
        simp [legacyJoined, legacyBase, hleg]
      rw [List.map_append]
      rw [List.nodup_append]
      refine ⟨hids, by simp, ?_⟩
      intro x hx
      simp only [List.mem_map] at hx
      obtain ⟨p, hp, hpx⟩ := hx
      simp only [List.map_cons, List.map_nil, List.mem_singleton, hid]
      intro hxx
      have := h4 p hp (by rw [hpx, hxx])
      exact aget_none_not_mem hleg p.2 (by rw [← this]; exact hp)

theorem legacy_upd_aget (st : ServerState) (ws : Nat) (client : ClientState)
    (f : Session → Session)
    (hids : (st.sessions.map fun p => p.2.id).Nodup)
    (h4 : ∀ p ∈ st.sessions, p.2.id = "sess_legacy" → p.1 = LEGACY_INVITE) :
    aget (updSessionById (aset st.sessions LEGACY_INVITE (legacyJoined st ws client))
        (legacyJoined st ws client).id f) LEGACY_INVITE =
      some (f (legacyJoined st ws client)) := by
  rw [aget_upd _ _ _ _ (legacy_aset_ids_nodup st ws client hids h4)]
  rw [aget_aset_self]
  simp

theorem legacy_upd_aget_ne (st : ServerState) (ws : Nat) (client : ClientState)
    (f : Session → Session) (c : String) (hc : c ≠ LEGACY_INVITE)
    (hids : (st.sessions.map fun p => p.2.id).Nodup)
    (h4 : ∀ p ∈ st.sessions, p.2.id = "sess_legacy" → p.1 = LEGACY_INVITE) :
    aget (updSessionById (aset st.sessions LEGACY_INVITE (legacyJoined st ws client))
        (legacyJoined st ws client).id f) c = aget st.sessions c := by
  rw [aget_upd _ _ _ _ (legacy_aset_ids_nodup st ws client hids h4)]
  rw [aget_aset_ne _ _ _ _ (fun h => hc h.symm)]
  cases hgc : aget st.sessions c with
  | none => rfl
  | some v =>
      have hvid : v.id ≠ (legacyJoined st ws client).id := by
        cases hleg : aget st.sessions LEGACY_INVITE with
        | some w =>
            have hlw : (legacyJoined st ws client).id = w.id := by
              simp [legacyJoined, legacyBase, hleg]
            rw [hlw]
            intro hvw
            have h1 := aget_mem hgc
            have h2 := aget_mem hleg
            have := List.inj_on_of_nodup_map hids h1 h2 hvw
            exact hc (congrArg Prod.fst this)
        | none =>
            have hlw : (legacyJoined st ws client).id = "sess_legacy" := by
              simp [legacyJoined, legacyBase, hleg]
            rw [hlw]
            intro hvw
            exact hc (h4 _ (aget_mem hgc) hvw)
      simp [hvid]

-- ## `getSession` unfoldings

theorem getSession_some (st : ServerState) (ws : Nat) (client : ClientState) (auto : Bool)
    (sid : String) (h : client.sessionId = some sid) :
    getSession st ws client auto = (st, findSessionById st.sessions sid) := by
  simp [getSession, h]

theorem getSession_none_auto (st : ServerState) (ws : Nat) (client : ClientState)
    (h : client.sessionId = none) :
    getSession st ws client true =
      ((getOrCreateLegacySession st ws client).1, some (getOrCreateLegacySession st ws client).2) := by
  simp [getSession, h]

theorem getSession_none_noauto (st : ServerState) (ws : Nat) (client : ClientState)
    (h : client.sessionId = none) :
    getSession st ws client false =
      (sendError st ws "INVALID_MESSAGE" "Not in a session", none) := by
  simp [getSession, h]

-- ## The sequence-number discipline (claim C3 machinery)

/-- Does an inbound message consume a sequence number when authorized?  The
four furniture/material edits always do; a furniture move only when flagged
committed; nothing else ever does. -/
def isSeqEdit : InMsg → Bool
  | .furnitureAdd _ _ _ _ _ _ => true
  | .furnitureRemove _ => true
  | .furnitureChangeVariation _ _ => true
  | .materialChange _ _ _ _ => true
  | .furnitureMove _ _ _ _ committed => committed
  | _ => false

/-- Does the sender on socket `ws` pass the edit authorization gate for the
session stored under invite code `code`?  A client with an explicit session
reference must resolve to that session and hold an editing role; a client
with no session auto-joins the legacy session as owner, so it is authorized
exactly for the legacy code. -/
def editAuthorized (st : ServerState) (ws : Nat) (code : String) : Bool :=
  match aget st.clients ws with
  | none => false
  | some client =>
      match client.sessionId with
      | none => code == LEGACY_INVITE
      | some sid =>
          match findSessionById st.sessions sid with
          | none => false
          | some s =>
              s.inviteCode == code &&
                match aget s.players client.playerId with
                | some q => canEdit q.role
                | none => false

/-- How much one inbound message changes the sequence number of the session
stored under `code`. -/
def seqDelta (st : ServerState) (ws : Nat) (m : InMsg) (code : String) : Nat :=
  if isSeqEdit m && editAuthorized st ws code then 1 else 0

/-- The session registry produced by any of the five furniture/material
handlers, factored over whether the message consumes a sequence number. -/
def furnSessions (st : ServerState) (ws : Nat) (client : ClientState) (bump : Bool) :
    List (String × Session) :=
  match client.sessionId with
  | some sid =>
      match findSessionById st.sessions sid with
      | none => st.sessions
      | some s =>
          match aget s.players client.playerId with
          | none => st.sessions
          | some q =>
              if canEdit q.role then
                if bump then updSessionById st.sessions s.id bumpSeq else st.sessions
              else st.sessions
  | none =>
      if bump then
        updSessionById (aset st.sessions LEGACY_INVITE (legacyJoined st ws client))
          (legacyJoined st ws client).id bumpSeq
      else aset st.sessions LEGACY_INVITE (legacyJoined st ws client)


theorem handleFurnitureAdd_sessions (st : ServerState) (ws : Nat) (client : ClientState)
    (a b : Option String) (p r pl : Option Nat) (pa : Option String) :
    (handleFurnitureAdd st ws client a b p r pl pa).sessions = furnSessions st ws client true := by
  unfold handleFurnitureAdd furnSessions
  cases hs : client.sessionId with
  | some sid =>
      rw [getSession_some st ws client true sid hs]
      cases hf : findSessionById st.sessions sid with
      | none => simp [hf]
      | some s =>
          cases hq : aget s.players client.playerId with
          | none => simp [hf, hq]
          | some q =>
              by_cases hce : canEdit q.role
              · simp [hf, hq, hce, broadcast_sessions]
              · simp [hf, hq, hce]
  | none =>
      rw [getSession_none_auto st ws client hs, legacy_snd]
      have hown : canEdit (legacyPlayer ws client).role = true := by
        simp [legacyPlayer, canEdit]
      simp [legacyJoined_players_self, hown, broadcast_sessions, legacy_fst_sessions]

theorem handleFurnitureRemove_sessions (st : ServerState) (ws : Nat) (client : ClientState)
    (a : Option String) :
    (handleFurnitureRemove st ws client a).sessions = furnSessions st ws client true := by
  unfold handleFurnitureRemove furnSessions
  cases hs : client.sessionId with
  | some sid =>
      rw [getSession_some st ws client true sid hs]
      cases hf : findSessionById st.sessions sid with
      | none => simp [hf]
      | some s =>
          cases hq : aget s.players client.playerId with
          | none => simp [hf, hq]
          | some q =>
              by_cases hce : canEdit q.role
              · simp [hf, hq, hce, broadcast_sessions]
              · simp [hf, hq, hce]
  | none =>
      rw [getSession_none_auto st ws client hs, legacy_snd]
      have hown : canEdit (legacyPlayer ws client).role = true := by
        simp [legacyPlayer, canEdit]
      simp [legacyJoined_players_self, hown, broadcast_sessions, legacy_fst_sessions]

theorem handleFurnitureChangeVariation_sessions (st : ServerState) (ws : Nat) (client : ClientState)
    (a b : Option String) :
    (handleFurnitureChangeVariation st ws client a b).sessions = furnSessions st ws client true := by
  unfold handleFurnitureChangeVariation furnSessions
  cases hs : client.sessionId with
  | some sid =>
      rw [getSession_some st ws client true sid hs]
      cases hf : findSessionById st.sessions sid with
      | none => simp [hf]
      | some s =>
          cases hq : aget s.players client.playerId with
          | none => simp [hf, hq]
          | some q =>
              by_cases hce : canEdit q.role
              · simp [hf, hq, hce, broadcast_sessions]
              · simp [hf, hq, hce]
  | none =>
      rw [getSession_none_auto st ws client hs, legacy_snd]
      have hown : canEdit (legacyPlayer ws client).role = true := by
        simp [legacyPlayer, canEdit]
      simp [legacyJoined_players_self, hown, broadcast_sessions, legacy_fst_sessions]

theorem handleMaterialChange_sessions (st : ServerState) (ws : Nat) (client : ClientState)
    (a b c d : Option String) :
    (handleMaterialChange st ws client a b c d).sessions = furnSessions st ws client true := by
  unfold handleMaterialChange furnSessions
  cases hs : client.sessionId with
  | some sid =>
      rw [getSession_some st ws client true sid hs]
      cases hf : findSessionById st.sessions sid with
      | none => simp [hf]
      | some s =>
          cases hq : aget s.players client.playerId with
          | none => simp [hf, hq]
          | some q =>
              by_cases hce : canEdit q.role
              · simp [hf, hq, hce, broadcast_sessions]
              · simp [hf, hq, hce]
  | none =>
      rw [getSession_none_auto st ws client hs, legacy_snd]
      have hown : canEdit (legacyPlayer ws client).role = true := by
        simp [legacyPlayer, canEdit]
      simp [legacyJoined_players_self, hown, broadcast_sessions, legacy_fst_sessions]

theorem handleFurnitureMove_sessions (st : ServerState) (ws : Nat) (client : ClientState)
    (a : Option String) (p r pl : Option Nat) (committed : Bool) :
    (handleFurnitureMove st ws client a p r pl committed).sessions =
      furnSessions st ws client committed := by
  unfold handleFurnitureMove furnSessions
  cases hs : client.sessionId with
  | some sid =>
      rw [getSession_some st ws client true sid hs]
      cases hf : findSessionById st.sessions sid with
      | none => cases committed <;> simp [hf]
      | some s =>
          cases hq : aget s.players client.playerId with
          | none => cases committed <;> simp [hf, hq]
          | some q =>
              by_cases hce : canEdit q.role
              · cases committed <;> simp [hf, hq, hce, broadcast_sessions]
              · cases committed <;> simp [hf, hq, hce]
  | none =>
      rw [getSession_none_auto st ws client hs, legacy_snd]
      have hown : canEdit (legacyPlayer ws client).role = true := by
        simp [legacyPlayer, canEdit]
      cases committed <;>
        simp [legacyJoined_players_self, hown, broadcast_sessions, legacy_fst_sessions]

theorem furnSessions_seq (st : ServerState) (ws : Nat) (client : ClientState) (bump : Bool)
    (code : String) (sess sess' : Session)
    (hcl : aget st.clients ws = some client)
    (hWF : SessionsWF st.sessions)
    (hpre : aget st.sessions code = some sess)
    (hpost : aget (furnSessions st ws client bump) code = some sess') :
    sess'.sequenceNumber =
      sess.sequenceNumber + (if bump && editAuthorized st ws code then 1 else 0) := by
  obtain ⟨hkeys, hcodes, hids, h4⟩ := hWF
  unfold furnSessions at hpost
  unfold editAuthorized
  cases hs : client.sessionId with
  | none =>
      simp only [hs] at hpost
      cases bump with
      | false =>
          simp only [Bool.false_eq_true, if_false] at hpost
          by_cases hcode : code = LEGACY_INVITE
          · subst hcode
            rw [aget_aset_self] at hpost
            have hse : legacyJoined st ws client = sess' := Option.some.inj hpost
            subst hse
            simp [hcl, hs, legacyJoined, legacyBase, hpre]
          · rw [aget_aset_ne _ _ _ _ (fun h => hcode h.symm), hpre] at hpost
            have hse : sess = sess' := Option.some.inj hpost
            subst hse
            simp
      | true =>
          simp only [if_true] at hpost
          by_cases hcode : code = LEGACY_INVITE
          · subst hcode
            rw [legacy_upd_aget st ws client bumpSeq hids h4] at hpost
            have hse : bumpSeq (legacyJoined st ws client) = sess' := Option.some.inj hpost
            subst hse
            simp [hcl, hs, bumpSeq, legacyJoined, legacyBase, hpre]
          · rw [legacy_upd_aget_ne st ws client bumpSeq code hcode hids h4, hpre] at hpost
            have hse : sess = sess' := Option.some.inj hpost
            subst hse
            have hbeq : (code == LEGACY_INVITE) = false := by simp [hcode]
            simp [hcl, hs, hbeq]
  | some sid =>
      simp only [hs] at hpost
      cases hf : findSessionById st.sessions sid with
      | none =>
          simp only [hf, hpre] at hpost
          have hse : sess = sess' := Option.some.inj hpost
          subst hse
          simp [hcl, hs, hf]
      | some s =>
          simp only [hf] at hpost
          cases hq : aget s.players client.playerId with
          | none =>
              simp only [hq, hpre] at hpost
              have hse : sess = sess' := Option.some.inj hpost
              subst hse
              simp [hcl, hs, hf, hq]
          | some q =>
              simp only [hq] at hpost
              by_cases hce : canEdit q.role
              · simp only [hce, if_true] at hpost
                cases bump with
                | false =>
                    simp only [Bool.false_eq_true, if_false, hpre] at hpost
                    have hse : sess = sess' := Option.some.inj hpost
                    subst hse
                    simp
                | true =>
                    simp only [if_true] at hpost
                    rw [aget_upd _ _ _ _ hids, hpre] at hpost
                    by_cases hid : sess.id = s.id
                    · obtain ⟨c0, hc0⟩ := findSessionById_mem hf
                      have hpairs := List.inj_on_of_nodup_map hids (aget_mem hpre) hc0 hid
                      have hssess : sess = s := congrArg Prod.snd hpairs
                      have hinv : s.inviteCode = code := by
                        rw [← hssess]
                        exact hcodes (code, sess) (aget_mem hpre)
                      simp only [hid, if_pos, Option.map_some', Option.some.injEq] at hpost
                      subst hpost
                      have hbeq : (s.inviteCode == code) = true := by simp [hinv]
                      simp [hcl, hs, hf, hq, hbeq, hce, bumpSeq]
                    · have hinv : s.inviteCode ≠ code := by
                        intro hc
                        obtain ⟨c0, hc0⟩ := findSessionById_mem hf
                        have hcc : s.inviteCode = c0 := hcodes (c0, s) hc0
                        have hgets : aget st.sessions code = some s := by
                          apply aget_eq_of_mem_nodup hkeys
                          rw [hc] at hcc
                          rw [hcc]
                          exact hc0
                        rw [hpre] at hgets
                        exact hid (congrArg Session.id (Option.some.inj hgets))
                      simp only [hid, if_neg, Option.map_some', Option.some.injEq] at hpost
                      subst hpost
                      have hbeq : (s.inviteCode == code) = false := by simp [hinv]
                      simp [hcl, hs, hf, hbeq]
              · rw [if_neg hce, hpre] at hpost
                have hse : sess = sess' := Option.some.inj hpost
                subst hse
                simp [hcl, hs, hf, hq, hce]

theorem keys_adel_sublist {α β : Type} [DecidableEq α] (l : List (α × β)) (k : α) :
    ((adel l k).map Prod.fst).Sublist (l.map Prod.fst) := by
  induction l with
  | nil => simp [adel]
  | cons hd t ih =>
      obtain ⟨k', v'⟩ := hd
      by_cases hk : k' = k
      · subst hk
        simp only [adel, if_pos rfl, List.map_cons]
        exact (List.sublist_cons_self _ _)
      · simp only [adel, if_neg hk, List.map_cons]
        exact ih.cons₂ _

theorem keys_adel_nodup {α β : Type} [DecidableEq α] {l : List (α × β)} (k : α)
    (h : (l.map Prod.fst).Nodup) : ((adel l k).map Prod.fst).Nodup :=
  (keys_adel_sublist l k).nodup h

theorem handleJoinSession_seq (st : ServerState) (ws : Nat) (client : ClientState)
    (ic uid un : Option String) (code : String) (sess sess' : Session)
    (hpre : aget st.sessions code = some sess)
    (hpost : aget (handleJoinSession st ws client ic uid un).sessions code = some sess') :
    sess'.sequenceNumber = sess.sequenceNumber := by
  unfold handleJoinSession at hpost
  by_cases h1 : client.sessionId.isSome
  · rw [if_pos h1, sendError_sessions, hpre] at hpost
    rw [Option.some.inj hpost]
  · rw [if_neg h1] at hpost
    cases ic with
    | none =>
        simp only [sendError_sessions, hpre] at hpost
        rw [Option.some.inj hpost]
    | some c =>
        simp only [] at hpost
        cases hg : aget st.sessions c with
        | none =>
            simp only [hg, sendError_sessions, hpre] at hpost
            rw [Option.some.inj hpost]
        | some session =>
            simp only [hg] at hpost
            by_cases hperm : session.linkPermission = "none"
            · rw [if_pos hperm, sendError_sessions, hpre] at hpost
              rw [Option.some.inj hpost]
            · rw [if_neg hperm] at hpost
              by_cases hcap : 25 ≤ session.players.length
              · rw [if_pos hcap, sendError_sessions, hpre] at hpost
                rw [Option.some.inj hpost]
              · rw [if_neg hcap] at hpost
                simp only [broadcast_sessions, send_sessions] at hpost
                by_cases hcode : c = code
                · subst hcode
                  rw [aget_aset_self] at hpost
                  rw [hpre] at hg
                  rw [← Option.some.inj hpost, ← Option.some.inj hg]
                · rw [aget_aset_ne _ _ _ _ hcode, hpre] at hpost
                  rw [Option.some.inj hpost]

theorem handleCreateSession_seq (st : ServerState) (ws : Nat) (client : ClientState)
    (a b c d : Option String) (draws : List Nat) (gsid : String) (code : String)
    (sess sess' : Session)
    (hFresh : aget st.sessions (generateCode draws) = none)
    (hpre : aget st.sessions code = some sess)
    (hpost : aget (handleCreateSession st ws client a b c d draws gsid).sessions code = some sess') :
    sess'.sequenceNumber = sess.sequenceNumber := by
  unfold handleCreateSession at hpost
  by_cases h1 : client.sessionId.isSome
  · rw [if_pos h1, sendError_sessions, hpre] at hpost
    rw [Option.some.inj hpost]
  · rw [if_neg h1] at hpost
    cases hdev : devJoinTarget st.sessions with
    | some c' =>
        simp only [hdev] at hpost
        exact handleJoinSession_seq st ws client (some c') a b code sess sess' hpre hpost
    | none =>
        simp only [hdev, send_sessions] at hpost
        have hcode : generateCode draws ≠ code := by
          intro h
          rw [h, hpre] at hFresh
          cases hFresh
        rw [aget_aset_ne _ _ _ _ hcode, hpre] at hpost
        rw [Option.some.inj hpost]

theorem handleMove_seq (st : ServerState) (ws : Nat) (client : ClientState)
    (p r : Option Nat) (code : String) (sess sess' : Session)
    (hWF : SessionsWF st.sessions)
    (hpre : aget st.sessions code = some sess)
    (hpost : aget (handleMove st ws client p r).sessions code = some sess') :
    sess'.sequenceNumber = sess.sequenceNumber := by
  obtain ⟨hkeys, hcodes, hids, h4⟩ := hWF
  unfold handleMove at hpost
  cases hs : client.sessionId with
  | some sid =>
      rw [getSession_some st ws client true sid hs] at hpost
      cases hf : findSessionById st.sessions sid with
      | none =>
          simp only [hf, hpre] at hpost
          rw [Option.some.inj hpost]
      | some s =>
          simp only [hf, broadcast_sessions] at hpost
          rw [aget_upd _ _ _ _ hids, hpre] at hpost
          simp only [Option.map_some'] at hpost
          rw [← Option.some.inj hpost]
          split <;> rfl
  | none =>
      rw [getSession_none_auto st ws client hs] at hpost
      simp only [legacy_snd, broadcast_sessions, legacy_fst_sessions] at hpost
      by_cases hcode : code = LEGACY_INVITE
      · subst hcode
        rw [legacy_upd_aget st ws client _ hids h4] at hpost
        rw [← Option.some.inj hpost]
        show (legacyJoined st ws client).sequenceNumber = sess.sequenceNumber
        simp [legacyJoined, legacyBase, hpre]
      · rw [legacy_upd_aget_ne st ws client _ code hcode hids h4, hpre] at hpost
        rw [Option.some.inj hpost]

theorem handlePointer_seq (st : ServerState) (ws : Nat) (client : ClientState)
    (o t : Option Nat) (code : String) (sess sess' : Session)
    (hWF : SessionsWF st.sessions)
    (hpre : aget st.sessions code = some sess)
    (hpost : aget (handlePointer st ws client o t).sessions code = some sess') :
    sess'.sequenceNumber = sess.sequenceNumber := by
  obtain ⟨hkeys, hcodes, hids, h4⟩ := hWF
  unfold handlePointer at hpost
  cases hs : client.sessionId with
  | some sid =>
      rw [getSession_some st ws client true sid hs] at hpost
      cases hf : findSessionById st.sessions sid with
      | none =>
          simp only [hf, hpre] at hpost
          rw [Option.some.inj hpost]
      | some s =>
          simp only [hf, broadcast_sessions, hpre] at hpost
          rw [Option.some.inj hpost]
  | none =>
      rw [getSession_none_auto st ws client hs] at hpost
      simp only [legacy_snd, broadcast_sessions, legacy_fst_sessions] at hpost
      by_cases hcode : code = LEGACY_INVITE
      · subst hcode
        rw [aget_aset_self] at hpost
        rw [← Option.some.inj hpost]
        simp [legacyJoined, legacyBase, hpre]
      · rw [aget_aset_ne _ _ _ _ (fun h => hcode h.symm), hpre] at hpost
        rw [Option.some.inj hpost]

theorem leaveSession_seq (st : ServerState) (ws : Nat) (client : ClientState)
    (code : String) (sess sess' : Session)
    (hWF : SessionsWF st.sessions)
    (hpre : aget st.sessions code = some sess)
    (hpost : aget (leaveSession st ws client).sessions code = some sess') :
    sess'.sequenceNumber = sess.sequenceNumber := by
  obtain ⟨hkeys, hcodes, hids, h4⟩ := hWF
  unfold leaveSession at hpost
  cases hs : client.sessionId with
  | none =>
      simp only [hs, hpre] at hpost
      rw [Option.some.inj hpost]
  | some sid =>
      simp only [hs] at hpost
      cases hf : findSessionById st.sessions sid with
      | none =>
          simp only [hf, hpre] at hpost
          rw [Option.some.inj hpost]
      | some session =>
          simp only [hf] at hpost
          have hupdkeys : ((updSessionById st.sessions sid fun s =>
              { s with players := adel s.players client.playerId }).map Prod.fst).Nodup := by
            rw [keys_upd]; exact hkeys
          have hL1 : ∀ v, aget (updSessionById st.sessions sid fun s =>
              { s with players := adel s.players client.playerId }) code = some v →
              v.sequenceNumber = sess.sequenceNumber := by
            intro v hv
            rw [aget_upd _ _ _ _ hids, hpre] at hv
            simp only [Option.map_some'] at hv
            rw [← Option.some.inj hv]
            split <;> rfl
          by_cases howner : client.playerId = session.ownerId
          · by_cases hleg : session.inviteCode = LEGACY_INVITE ∧
                adel session.players client.playerId = []
            · simp only [if_pos howner, if_pos hleg, clearRefs_sessions,
                broadcast_sessions] at hpost
              rw [aget_adel _ _ _ (keys_adel_nodup _ hupdkeys)] at hpost
              by_cases h1 : code = LEGACY_INVITE
              · rw [if_pos h1] at hpost; cases hpost
              · rw [if_neg h1] at hpost
                rw [aget_adel _ _ _ hupdkeys] at hpost
                by_cases h2 : code = session.inviteCode
                · rw [if_pos h2] at hpost; cases hpost
                · rw [if_neg h2] at hpost
                  exact hL1 _ hpost
            · simp only [if_pos howner, if_neg hleg, clearRefs_sessions,
                broadcast_sessions] at hpost
              rw [aget_adel _ _ _ hupdkeys] at hpost
              by_cases h2 : code = session.inviteCode
              · rw [if_pos h2] at hpost; cases hpost
              · rw [if_neg h2] at hpost
                exact hL1 _ hpost
          · by_cases hleg : session.inviteCode = LEGACY_INVITE ∧
                adel session.players client.playerId = []
            · simp only [if_neg howner, if_pos hleg, broadcast_sessions] at hpost
              rw [aget_adel _ _ _ hupdkeys] at hpost
              by_cases h1 : code = LEGACY_INVITE
              · rw [if_pos h1] at hpost; cases hpost
              · rw [if_neg h1] at hpost
                exact hL1 _ hpost
            · simp only [if_neg howner, if_neg hleg, broadcast_sessions] at hpost
              exact hL1 _ hpost

theorem handleUpdateState_seq (st : ServerState) (ws : Nat) (client : ClientState)
    (px : Option String) (code : String) (sess sess' : Session)
    (hWF : SessionsWF st.sessions)
    (hpre : aget st.sessions code = some sess)
    (hpost : aget (handleUpdateState st ws client px).sessions code = some sess') :
    sess'.sequenceNumber = sess.sequenceNumber := by
  obtain ⟨hkeys, hcodes, hids, h4⟩ := hWF
  unfold handleUpdateState at hpost
  cases hs : client.sessionId with
  | none =>
      rw [getSession_none_noauto st ws client hs] at hpost
      simp only [sendError_sessions, hpre] at hpost
      rw [Option.some.inj hpost]
  | some sid =>
      rw [getSession_some st ws client false sid hs] at hpost
      cases hf : findSessionById st.sessions sid with
      | none =>
          simp only [hf, hpre] at hpost
          rw [Option.some.inj hpost]
      | some s =>
          simp only [hf] at hpost
          by_cases hown : client.playerId ≠ s.ownerId
          · rw [if_pos hown, hpre] at hpost
            rw [Option.some.inj hpost]
          · rw [if_neg hown] at hpost
            rw [aget_upd _ _ _ _ hids, hpre] at hpost
            simp only [Option.map_some'] at hpost
            rw [← Option.some.inj hpost]
            split <;> rfl

theorem handleLinkPermissionChange_seq (st : ServerState) (ws : Nat) (client : ClientState)
    (lp : Option String) (code : String) (sess sess' : Session)
    (hWF : SessionsWF st.sessions)
    (hpre : aget st.sessions code = some sess)
    (hpost : aget (handleLinkPermissionChange st ws client lp).sessions code = some sess') :
    sess'.sequenceNumber = sess.sequenceNumber := by
  obtain ⟨hkeys, hcodes, hids, h4⟩ := hWF
  unfold handleLinkPermissionChange at hpost
  cases hs : client.sessionId with
  | none =>
      rw [getSession_none_noauto st ws client hs] at hpost
      simp only [sendError_sessions, hpre] at hpost
      rw [Option.some.inj hpost]
  | some sid =>
      rw [getSession_some st ws client false sid hs] at hpost
      cases hf : findSessionById st.sessions sid with
      | none =>
          simp only [hf, hpre] at hpost
          rw [Option.some.inj hpost]
      | some s =>
          simp only [hf] at hpost
          by_cases hown : client.playerId ≠ s.ownerId
          · rw [if_pos hown, hpre] at hpost
            rw [Option.some.inj hpost]
          · rw [if_neg hown] at hpost
            simp only [broadcast_sessions] at hpost
            rw [aget_upd _ _ _ _ hids, hpre] at hpost
            simp only [Option.map_some'] at hpost
            rw [← Option.some.inj hpost]
            split <;> rfl

/-- C3: across any single inbound message, a session's `sequenceNumber` never
decreases: it grows by exactly 1 when the message is a furniture add, remove,
variation change or material change from an authorized sender, or a furniture
move flagged committed, addressed (explicitly or via the legacy fallback) to
that session; it is unchanged for uncommitted moves and all other message
types.  `hFresh` records that a freshly generated invite code is not already
in use, which holds on every reachable registry. -/
theorem sequenceNumber_step (st : ServerState) (ws : Nat) (m : InMsg) (draws : List Nat)
    (gsid : String) (code : String) (sess sess' : Session)
    (hWF : SessionsWF st.sessions)
    (hFresh : ∀ a b c d, m = InMsg.createSession a b c d →
      aget st.sessions (generateCode draws) = none)
    (hpre : aget st.sessions code = some sess)
    (hpost : aget (msgStep st ws m draws gsid).sessions code = some sess') :
    sess'.sequenceNumber = sess.sequenceNumber + seqDelta st ws m code := by
  unfold msgStep at hpost
  cases m with
  | badJson =>
      simp only [sendError_sessions, hpre] at hpost
      simp [seqDelta, isSeqEdit, Option.some.inj hpost]
  | noType =>
      simp only [sendError_sessions, hpre] at hpost
      simp [seqDelta, isSeqEdit, Option.some.inj hpost]
  | unknownType t =>
      cases hcl : aget st.clients ws with
      | none =>
          simp only [hcl, hpre] at hpost
          simp [seqDelta, isSeqEdit, Option.some.inj hpost]
      | some client =>
          simp only [hcl, hpre] at hpost
          simp [seqDelta, isSeqEdit, Option.some.inj hpost]
  | createSession a b c d =>
      cases hcl : aget st.clients ws with
      | none =>
          simp only [hcl, hpre] at hpost
          simp [seqDelta, isSeqEdit, Option.some.inj hpost]
      | some client =>
          simp only [hcl] at hpost
          have h := handleCreateSession_seq st ws client a b c d draws gsid code sess sess'
            (hFresh a b c d rfl) hpre hpost
          simp [seqDelta, isSeqEdit, h]
  | joinSession a b c =>
      cases hcl : aget st.clients ws with
      | none =>
          simp only [hcl, hpre] at hpost
          simp [seqDelta, isSeqEdit, Option.some.inj hpost]
      | some client =>
          simp only [hcl] at hpost
          have h := handleJoinSession_seq st ws client a b c code sess sess' hpre hpost
          simp [seqDelta, isSeqEdit, h]
  | leaveMsg =>
      cases hcl : aget st.clients ws with
      | none =>
          simp only [hcl, hpre] at hpost
          simp [seqDelta, isSeqEdit, Option.some.inj hpost]
      | some client =>
          simp only [hcl] at hpost
          have h := leaveSession_seq st ws client code sess sess' hWF hpre hpost
          simp [seqDelta, isSeqEdit, h]
  | move p r =>
      cases hcl : aget st.clients ws with
      | none =>
          simp only [hcl, hpre] at hpost
          simp [seqDelta, isSeqEdit, Option.some.inj hpost]
      | some client =>
          simp only [hcl] at hpost
          have h := handleMove_seq st ws client p r code sess sess' hWF hpre hpost
          simp [seqDelta, isSeqEdit, h]
  | pointer o t =>
      cases hcl : aget st.clients ws with
      | none =>
          simp only [hcl, hpre] at hpost
          simp [seqDelta, isSeqEdit, Option.some.inj hpost]
      | some client =>
          simp only [hcl] at hpost
          have h := handlePointer_seq st ws client o t code sess sess' hWF hpre hpost
          simp [seqDelta, isSeqEdit, h]
  | updateState px =>
      cases hcl : aget st.clients ws with
      | none =>
          simp only [hcl, hpre] at hpost
          simp [seqDelta, isSeqEdit, Option.some.inj hpost]
      | some client =>
          simp only [hcl] at hpost
          have h := handleUpdateState_seq st ws client px code sess sess' hWF hpre hpost
          simp [seqDelta, isSeqEdit, h]
  | linkPermissionChange lp =>
      cases hcl : aget st.clients ws with
      | none =>
          simp only [hcl, hpre] at hpost
          simp [seqDelta, isSeqEdit, Option.some.inj hpost]
      | some client =>
          simp only [hcl] at hpost
          have h := handleLinkPermissionChange_seq st ws client lp code sess sess' hWF hpre hpost
          simp [seqDelta, isSeqEdit, h]
  | furnitureAdd a b p r pl pa =>
      cases hcl : aget st.clients ws with
      | none =>
          simp only [hcl, hpre] at hpost
          simp [seqDelta, editAuthorized, hcl, Option.some.inj hpost]
      | some client =>
          simp only [hcl] at hpost
          rw [handleFurnitureAdd_sessions] at hpost
          have h := furnSessions_seq st ws client true code sess sess' hcl hWF hpre hpost
          simpa [seqDelta, isSeqEdit] using h
  | furnitureRemove a =>
      cases hcl : aget st.clients ws with
      | none =>
          simp only [hcl, hpre] at hpost
          simp [seqDelta, editAuthorized, hcl, Option.some.inj hpost]
      | some client =>
          simp only [hcl] at hpost
          rw [handleFurnitureRemove_sessions] at hpost
          have h := furnSessions_seq st ws client true code sess sess' hcl hWF hpre hpost
          simpa [seqDelta, isSeqEdit] using h
  | furnitureChangeVariation a b =>
      cases hcl : aget st.clients ws with
      | none =>
          simp only [hcl, hpre] at hpost
          simp [seqDelta, editAuthorized, hcl, Option.some.inj hpost]
      | some client =>
          simp only [hcl] at hpost
          rw [handleFurnitureChangeVariation_sessions] at hpost
          have h := furnSessions_seq st ws client true code sess sess' hcl hWF hpre hpost
          simpa [seqDelta, isSeqEdit] using h
  | materialChange a b c d =>
      cases hcl : aget st.clients ws with
      | none =>
          simp only [hcl, hpre] at hpost
          simp [seqDelta, editAuthorized, hcl, Option.some.inj hpost]
      | some client =>
          simp only [hcl] at hpost
          rw [handleMaterialChange_sessions] at hpost
          have h := furnSessions_seq st ws client true code sess sess' hcl hWF hpre hpost
          simpa [seqDelta, isSeqEdit] using h
  | furnitureMove a p r pl c =>
      cases hcl : aget st.clients ws with
      | none =>
          simp only [hcl, hpre] at hpost
          simp [seqDelta, editAuthorized, hcl, Option.some.inj hpost]
      | some client =>
          simp only [hcl] at hpost
          rw [handleFurnitureMove_sessions] at hpost
          have h := furnSessions_seq st ws client c code sess sess' hcl hWF hpre hpost
          simpa [seqDelta, isSeqEdit] using h

-- ## Roster-capacity machinery (claim C2)

/-- Every non-legacy session's roster is within the 25-player cap. -/
def RosterBound (l : List (String × Session)) : Prop :=
  ∀ p ∈ l, p.1 ≠ LEGACY_INVITE → p.2.players.length ≤ 25

theorem RosterBound_aset {l : List (String × Session)} {k : String} {v : Session}
    (h : RosterBound l) (hv : k ≠ LEGACY_INVITE → v.players.length ≤ 25) :
    RosterBound (aset l k v) := by
  intro p hp hne
  rcases mem_aset hp with h1 | h1
  · exact h p h1 hne
  · subst h1
    exact hv hne

theorem RosterBound_upd {l : List (String × Session)} {sid : String} {f : Session → Session}
    (h : RosterBound l) (hf : ∀ s, (f s).players.length ≤ s.players.length) :
    RosterBound (updSessionById l sid f) := by
  intro p hp hne
  rcases mem_upd hp with h1 | ⟨q, hq, hpq⟩
  · exact h p h1 hne
  · subst hpq
    exact le_trans (hf q.2) (h q hq (by simpa using hne))

theorem RosterBound_adel {l : List (String × Session)} {k : String}
    (h : RosterBound l) : RosterBound (adel l k) :=
  fun p hp hne => h p (mem_adel hp) hne

theorem adel_length_le {α β : Type} [DecidableEq α] (l : List (α × β)) (k : α) :
    (adel l k).length ≤ l.length := by
  induction l with
  | nil => simp [adel]
  | cons hd t ih =>
      obtain ⟨k', v'⟩ := hd
      by_cases hk : k' = k
      · subst hk; simp [adel]
      · simp only [adel, if_neg hk, List.length_cons]
        omega

theorem bumpSeq_players_le (s : Session) : (bumpSeq s).players.length ≤ s.players.length :=
  le_of_eq rfl

theorem furnSessions_roster (st : ServerState) (ws : Nat) (client : ClientState) (bump : Bool)
    (h : RosterBound st.sessions) : RosterBound (furnSessions st ws client bump) := by
  intro p hp hne
  unfold furnSessions at hp
  cases hs : client.sessionId with
  | some sid =>
      simp only [hs] at hp
      cases hf : findSessionById st.sessions sid with
      | none => simp only [hf] at hp; exact h p hp hne
      | some s =>
          simp only [hf] at hp
          cases hq : aget s.players client.playerId with
          | none => simp only [hq] at hp; exact h p hp hne
          | some q =>
              simp only [hq] at hp
              by_cases hce : canEdit q.role
              · simp only [hce, if_true] at hp
                cases bump with
                | false => simp only [Bool.false_eq_true, if_false] at hp; exact h p hp hne
                | true =>
                    simp only [if_true] at hp
                    exact RosterBound_upd h bumpSeq_players_le p hp hne
              · rw [if_neg hce] at hp
                exact h p hp hne
  | none =>
      simp only [hs] at hp
      have hset : RosterBound (aset st.sessions LEGACY_INVITE (legacyJoined st ws client)) :=
        RosterBound_aset h (fun hne' => absurd rfl hne')
      cases bump with
      | false =>
          simp only [Bool.false_eq_true, if_false] at hp
          exact hset p hp hne
      | true =>
          simp only [if_true] at hp
          exact RosterBound_upd hset bumpSeq_players_le p hp hne

theorem handleJoinSession_roster (st : ServerState) (ws : Nat) (client : ClientState)
    (ic uid un : Option String) (h : RosterBound st.sessions) :
    RosterBound (handleJoinSession st ws client ic uid un).sessions := by
  intro p hp hne
  unfold handleJoinSession at hp
  by_cases h1 : client.sessionId.isSome
  · rw [if_pos h1, sendError_sessions] at hp
    exact h p hp hne
  · rw [if_neg h1] at hp
    cases ic with
    | none =>
        simp only [sendError_sessions] at hp
        exact h p hp hne
    | some c =>
        simp only [] at hp
        cases hg : aget st.sessions c with
        | none =>
            simp only [hg, sendError_sessions] at hp
            exact h p hp hne
        | some session =>
            simp only [hg] at hp
            by_cases hperm : session.linkPermission = "none"
            · rw [if_pos hperm, sendError_sessions] at hp
              exact h p hp hne
            · rw [if_neg hperm] at hp
              by_cases hcap : 25 ≤ session.players.length
              · rw [if_pos hcap, sendError_sessions] at hp
                exact h p hp hne
              · rw [if_neg hcap] at hp
                simp only [broadcast_sessions, send_sessions] at hp
                rcases mem_aset hp with h2 | h2
                · exact h p h2 hne
                · rw [h2]
                  have := length_aset_le session.players client.playerId
                    { playerId := client.playerId, userId := coerceId uid,
                      userName := orElseStr un "Guest", role := joinRole uid session,
                      position := 0, rotation := 0, wsId := ws }
                  show (aset session.players client.playerId _).length ≤ 25
                  omega

theorem handleCreateSession_roster (st : ServerState) (ws : Nat) (client : ClientState)
    (a b c d : Option String) (draws : List Nat) (gsid : String)
    (h : RosterBound st.sessions) :
    RosterBound (handleCreateSession st ws client a b c d draws gsid).sessions := by
  intro p hp hne
  unfold handleCreateSession at hp
  by_cases h1 : client.sessionId.isSome
  · rw [if_pos h1, sendError_sessions] at hp
    exact h p hp hne
  · rw [if_neg h1] at hp
    cases hdev : devJoinTarget st.sessions with
    | some c' =>
        simp only [hdev] at hp
        exact handleJoinSession_roster st ws client (some c') a b h p hp hne
    | none =>
        simp only [hdev, send_sessions] at hp
        rcases mem_aset hp with h2 | h2
        · exact h p h2 hne
        · rw [h2]
          simp

theorem leaveSession_roster (st : ServerState) (ws : Nat) (client : ClientState)
    (h : RosterBound st.sessions) : RosterBound (leaveSession st ws client).sessions := by
  intro p hp hne
  unfold leaveSession at hp
  cases hs : client.sessionId with
  | none => simp only [hs] at hp; exact h p hp hne
  | some sid =>
      simp only [hs] at hp
      cases hf : findSessionById st.sessions sid with
      | none => simp only [hf] at hp; exact h p hp hne
      | some session =>
          simp only [hf] at hp
          have hupd : RosterBound (updSessionById st.sessions sid fun s =>
              { s with players := adel s.players client.playerId }) :=
            RosterBound_upd h fun s => adel_length_le s.players client.playerId
          by_cases howner : client.playerId = session.ownerId
          · by_cases hleg : session.inviteCode = LEGACY_INVITE ∧
                adel session.players client.playerId = []
            · simp only [if_pos howner, if_pos hleg, clearRefs_sessions,
                broadcast_sessions] at hp
              exact RosterBound_adel (RosterBound_adel hupd) p hp hne
            · simp only [if_pos howner, if_neg hleg, clearRefs_sessions,
                broadcast_sessions] at hp
              exact RosterBound_adel hupd p hp hne
          · by_cases hleg : session.inviteCode = LEGACY_INVITE ∧
                adel session.players client.playerId = []
            · simp only [if_neg howner, if_pos hleg, broadcast_sessions] at hp
              exact RosterBound_adel hupd p hp hne
            · simp only [if_neg howner, if_neg hleg, broadcast_sessions] at hp
              exact hupd p hp hne

theorem handleMove_roster (st : ServerState) (ws : Nat) (client : ClientState)
    (pos r : Option Nat) (h : RosterBound st.sessions) :
    RosterBound (handleMove st ws client pos r).sessions := by
  have hf : ∀ x : Session,
      (match aget x.players client.playerId with
        | some q => aset x.players client.playerId
            { q with position := pos.getD q.position, rotation := r.getD q.rotation }
        | none => x.players).length ≤ x.players.length := by
    intro x
    cases hx : aget x.players client.playerId with
    | none => simp
    | some q =>
        simp only []
        exact le_of_eq (length_aset_of_isSome _ _ _ (by simp [hx]))
  intro p hp hne
  unfold handleMove at hp
  cases hs : client.sessionId with
  | some sid =>
      rw [getSession_some st ws client true sid hs] at hp
      cases hg : findSessionById st.sessions sid with
      | none => simp only [hg] at hp; exact h p hp hne
      | some s =>
          simp only [hg, broadcast_sessions] at hp
          exact RosterBound_upd h hf p hp hne
  | none =>
      rw [getSession_none_auto st ws client hs] at hp
      simp only [legacy_snd, broadcast_sessions, legacy_fst_sessions] at hp
      exact RosterBound_upd (RosterBound_aset h (fun hne' => absurd rfl hne')) hf p hp hne

theorem handlePointer_roster (st : ServerState) (ws : Nat) (client : ClientState)
    (o t : Option Nat) (h : RosterBound st.sessions) :
    RosterBound (handlePointer st ws client o t).sessions := by
  intro p hp hne
  unfold handlePointer at hp
  cases hs : client.sessionId with
  | some sid =>
      rw [getSession_some st ws client true sid hs] at hp
      cases hg : findSessionById st.sessions sid with
      | none => simp only [hg] at hp; exact h p hp hne
      | some s =>
          simp only [hg, broadcast_sessions] at hp
          exact h p hp hne
  | none =>
      rw [getSession_none_auto st ws client hs] at hp
      simp only [legacy_snd, broadcast_sessions, legacy_fst_sessions] at hp
      exact RosterBound_aset h (fun hne' => absurd rfl hne') p hp hne

theorem handleUpdateState_roster (st : ServerState) (ws : Nat) (client : ClientState)
    (px : Option String) (h : RosterBound st.sessions) :
    RosterBound (handleUpdateState st ws client px).sessions := by
  intro p hp hne
  unfold handleUpdateState at hp
  cases hs : client.sessionId with
  | none =>
      rw [getSession_none_noauto st ws client hs] at hp
      simp only [sendError_sessions] at hp
      exact h p hp hne
  | some sid =>
      rw [getSession_some st ws client false sid hs] at hp
      cases hg : findSessionById st.sessions sid with
      | none => simp only [hg] at hp; exact h p hp hne
      | some s =>
          simp only [hg] at hp
          by_cases hown : client.playerId ≠ s.ownerId
          · rw [if_pos hown] at hp
            exact h p hp hne
          · rw [if_neg hown] at hp
            refine RosterBound_upd h ?_ p hp hne
            intro x
            exact le_of_eq rfl

theorem handleLinkPermissionChange_roster (st : ServerState) (ws : Nat) (client : ClientState)
    (lp : Option String) (h : RosterBound st.sessions) :
    RosterBound (handleLinkPermissionChange st ws client lp).sessions := by
  intro p hp hne
  unfold handleLinkPermissionChange at hp
  cases hs : client.sessionId with
  | none =>
      rw [getSession_none_noauto st ws client hs] at hp
      simp only [sendError_sessions] at hp
      exact h p hp hne
  | some sid =>
      rw [getSession_some st ws client false sid hs] at hp
      cases hg : findSessionById st.sessions sid with
      | none => simp only [hg] at hp; exact h p hp hne
      | some s =>
          simp only [hg] at hp
          by_cases hown : client.playerId ≠ s.ownerId
          · rw [if_pos hown] at hp
            exact h p hp hne
          · rw [if_neg hown] at hp
            simp only [broadcast_sessions] at hp
            refine RosterBound_upd h ?_ p hp hne
            intro x
            exact le_of_eq rfl

/-- C2 (amended): every transition preserves the 25-player roster bound for
all non-legacy sessions.  `join_session` is the only capacity-checked way to
grow a roster; the legacy auto-provision path has no capacity check, so the
legacy session itself is exempt (see the counterexample). -/
theorem roster_bound_nonlegacy_step (st : ServerState) (e : Event)
    (h : ∀ p ∈ st.sessions, p.1 ≠ LEGACY_INVITE → p.2.players.length ≤ 25) :
    ∀ p ∈ (step st e).sessions, p.1 ≠ LEGACY_INVITE → p.2.players.length ≤ 25 := by
  cases e with
  | connect ws => exact h
  | disconnect ws =>
      intro p hp hne
      unfold step at hp
      cases hg : aget (ServerState.clients { st with openWs := st.openWs.erase ws }) ws with
      | none => simp only [hg] at hp; exact h p hp hne
      | some c =>
          simp only [hg] at hp
          by_cases hcs : c.sessionId.isSome
          · simp only [hcs, if_true] at hp
            exact leaveSession_roster { st with openWs := st.openWs.erase ws } ws c h p hp hne
          · simp only [hcs, Bool.false_eq_true, if_false] at hp
            exact h p hp hne
  | message ws m draws gsid =>
      intro p hp hne
      show p.2.players.length ≤ 25
      have hstep : (step st (Event.message ws m draws gsid)).sessions =
          (msgStep st ws m draws gsid).sessions := rfl
      rw [hstep] at hp
      unfold msgStep at hp
      cases m with
      | badJson => rw [sendError_sessions] at hp; exact h p hp hne
      | noType => rw [sendError_sessions] at hp; exact h p hp hne
      | unknownType t =>
          cases hcl : aget st.clients ws with
          | none => simp only [hcl] at hp; exact h p hp hne
          | some client => simp only [hcl] at hp; exact h p hp hne
      | createSession a b c d =>
          cases hcl : aget st.clients ws with
          | none => simp only [hcl] at hp; exact h p hp hne
          | some client =>
              simp only [hcl] at hp
              exact handleCreateSession_roster st ws client a b c d draws gsid h p hp hne
      | joinSession a b c =>
          cases hcl : aget st.clients ws with
          | none => simp only [hcl] at hp; exact h p hp hne
          | some client =>
              simp only [hcl] at hp
              exact handleJoinSession_roster st ws client a b c h p hp hne
      | leaveMsg =>
          cases hcl : aget st.clients ws with
          | none => simp only [hcl] at hp; exact h p hp hne
          | some client =>
              simp only [hcl] at hp
              exact leaveSession_roster st ws client h p hp hne
      | move pos r =>
          cases hcl : aget st.clients ws with
          | none => simp only [hcl] at hp; exact h p hp hne
          | some client =>
              simp only [hcl] at hp
              exact handleMove_roster st ws client pos r h p hp hne
      | pointer o t =>
          cases hcl : aget st.clients ws with
          | none => simp only [hcl] at hp; exact h p hp hne
          | some client =>
              simp only [hcl] at hp
              exact handlePointer_roster st ws client o t h p hp hne
      | furnitureMove a pos r pl c =>
          cases hcl : aget st.clients ws with
          | none => simp only [hcl] at hp; exact h p hp hne
          | some client =>
              simp only [hcl] at hp
              rw [handleFurnitureMove_sessions] at hp
              exact furnSessions_roster st ws client c h p hp hne
      | furnitureAdd a b pos r pl pa =>
          cases hcl : aget st.clients ws with
          | none => simp only [hcl] at hp; exact h p hp hne
          | some client =>
              simp only [hcl] at hp
              rw [handleFurnitureAdd_sessions] at hp
              exact furnSessions_roster st ws client true h p hp hne
      | furnitureRemove a =>
          cases hcl : aget st.clients ws with
          | none => simp only [hcl] at hp; exact h p hp hne
          | some client =>
              simp only [hcl] at hp
              rw [handleFurnitureRemove_sessions] at hp
              exact furnSessions_roster st ws client true h p hp hne
      | furnitureChangeVariation a b =>
          cases hcl : aget st.clients ws with
          | none => simp only [hcl] at hp; exact h p hp hne
          | some client =>
              simp only [hcl] at hp
              rw [handleFurnitureChangeVariation_sessions] at hp
              exact furnSessions_roster st ws client true h p hp hne
      | materialChange a b c d =>
          cases hcl : aget st.clients ws with
          | none => simp only [hcl] at hp; exact h p hp hne
          | some client =>
              simp only [hcl] at hp
              rw [handleMaterialChange_sessions] at hp
              exact furnSessions_roster st ws client true h p hp hne
      | updateState px =>
          cases hcl : aget st.clients ws with
          | none => simp only [hcl] at hp; exact h p hp hne
          | some client =>
              simp only [hcl] at hp
              exact handleUpdateState_roster st ws client px h p hp hne
      | linkPermissionChange lp =>
          cases hcl : aget st.clients ws with
          | none => simp only [hcl] at hp; exact h p hp hne
          | some client =>
              simp only [hcl] at hp
              exact handleLinkPermissionChange_roster st ws client lp h p hp hne

-- ## Concrete fixtures for witnesses

/-- Fixture roster: owner (client 1), a guest-view member (2), a guest-edit
member (3). -/
def fixOwner : Player :=
  { playerId := 1, userId := some "u1", userName := "Owner", role := "owner",
    position := 0, rotation := 0, wsId := 1 }

def fixViewer : Player :=
  { playerId := 2, userId := none, userName := "Viewer", role := "guest-view",
    position := 0, rotation := 0, wsId := 2 }

def fixEditor : Player :=
  { playerId := 3, userId := none, userName := "Editor", role := "guest-edit",
    position := 0, rotation := 0, wsId := 3 }

/-- Fixture session under invite code "ABCDEF". -/
def fixSess : Session :=
  { id := "s1", inviteCode := "ABCDEF", ownerId := 1, ownerUserId := some "u1",
    projectXml := "x", linkPermission := "edit", sequenceNumber := 5,
    players := [(1, fixOwner), (2, fixViewer), (3, fixEditor)] }

/-- Fixture server state: the session above plus a sessionless client 4. -/
def fixSt : ServerState :=
  { nextPlayerId := 5,
    sessions := [("ABCDEF", fixSess)],
    clients := [(1, { playerId := 1, sessionId := some "s1" }),
                (2, { playerId := 2, sessionId := some "s1" }),
                (3, { playerId := 3, sessionId := some "s1" }),
                (4, { playerId := 4, sessionId := none })],
    openWs := [1, 2, 3, 4],
    outbox := [] }

/-- Fixture state with an empty registry and one sessionless client. -/
def fixSt2 : ServerState :=
  { nextPlayerId := 2, sessions := [],
    clients := [(1, { playerId := 1, sessionId := none })],
    openWs := [1], outbox := [] }

/-- The session fixture after client 4 joins "ABCDEF" as guest-edit. -/
def fixJoinedSess : Session :=
  { fixSess with players := aset fixSess.players 4 (Player.mk 4 none "Guest" "guest-edit" 0 0 4) }

/-- C2 (witness): the preservation theorem applied to the fixture state and a
concrete successful join. -/
theorem roster_bound_nonlegacy_step_witness : fixJoinedSess.players.length ≤ 25 := by
  have hsl : (step fixSt
      (Event.message 4 (InMsg.joinSession (some "ABCDEF") none none) [] "s")).sessions =
      [("ABCDEF", fixJoinedSess)] := by decide
  exact roster_bound_nonlegacy_step fixSt
    (Event.message 4 (InMsg.joinSession (some "ABCDEF") none none) [] "s")
    (by decide) ("ABCDEF", fixJoinedSess)
    (by rw [hsl]; exact List.mem_singleton.mpr rfl) (by decide)

/-- C3 (witness): an authorized `furniture_add` from the guest-edit member
bumps the fixture session's sequence number from 5 to 6, matching
`seqDelta = 1`. -/
theorem sequenceNumber_step_witness :
    ({ fixSess with sequenceNumber := 6 } : Session).sequenceNumber =
      fixSess.sequenceNumber +
        seqDelta fixSt 3 (InMsg.furnitureAdd (some "f") none none none none none) "ABCDEF" :=
  sequenceNumber_step fixSt 3 (InMsg.furnitureAdd (some "f") none none none none none) [] "s"
    "ABCDEF" fixSess { fixSess with sequenceNumber := 6 }
    ⟨by decide, by decide, by decide, by decide⟩
    (fun a b c d h => InMsg.noConfusion h) (by decide) (by decide)

-- ## Claim C1: session creation

/-- C1 (amended): `create_session` from a client with a session fails with
`ALREADY_IN_SESSION`; from a sessionless client it allocates a brand-new
session — with `sequenceNumber` 0, the requester as sole roster member with
role owner, stored under the freshly generated 6-character code, and a
`session_created` reply to the requester only — but only when no non-legacy
session with a non-empty roster exists; otherwise the dev-mode scan joins
the requester to the first such session instead (see the counterexample),
and the generated code is used without any collision check. -/
theorem createSession_amended (st : ServerState) (ws : Nat) (client : ClientState)
    (a b c d : Option String) (draws : List Nat) (gsid : String) :
    (client.sessionId = none → devJoinTarget st.sessions = none → ws ∈ st.openWs →
      ∃ sess,
        aget (handleCreateSession st ws client a b c d draws gsid).sessions
            (generateCode draws) = some sess ∧
        sess.sequenceNumber = 0 ∧
        sess.inviteCode = generateCode draws ∧
        (generateCode draws).length = 6 ∧
        sess.players =
          [(client.playerId, Player.mk client.playerId (coerceId a) (orElseStr b "Owner") "owner" 0 0 ws)] ∧
        (handleCreateSession st ws client a b c d draws gsid).outbox =
          st.outbox ++ [(ws, OutMsg.sessionCreated (generateCode draws) gsid 0
            client.playerId)]) ∧
    (∀ sid0, client.sessionId = some sid0 →
      handleCreateSession st ws client a b c d draws gsid =
        sendError st ws "ALREADY_IN_SESSION" "Already in a session") := by
  constructor
  · intro hns hdev hopen
    unfold handleCreateSession
    have h1 : client.sessionId.isSome = false := by simp [hns]
    rw [h1]
    simp only [Bool.false_eq_true, if_false, hdev]
    refine ⟨{ id := gsid, inviteCode := generateCode draws, ownerId := client.playerId,
              ownerUserId := coerceId a, projectXml := orElseStr c "",
              linkPermission := orElseStr d "edit", sequenceNumber := 0,
              players := [(client.playerId,
                Player.mk client.playerId (coerceId a) (orElseStr b "Owner") "owner" 0 0 ws)] },
            ?_, rfl, rfl, generateCode_length draws, rfl, ?_⟩
    · rw [send_sessions]
      exact aget_aset_self ..
    · rw [send_outbox]
      simp only [hopen, if_pos]
  · intro sid0 hsid
    unfold handleCreateSession
    have h1 : client.sessionId.isSome = true := by simp [hsid]
    rw [h1]
    simp

/-- C1 (witness): both halves of the amended theorem at concrete inputs — a
fresh creation in the empty-registry fixture, and the `ALREADY_IN_SESSION`
rejection for a client holding a session. -/
theorem createSession_amended_witness :
    (∃ sess,
      aget (handleCreateSession fixSt2 1 { playerId := 1, sessionId := none }
          none none none none [0, 1, 2, 3, 4, 5] "sessA").sessions
          (generateCode [0, 1, 2, 3, 4, 5]) = some sess ∧
      sess.sequenceNumber = 0 ∧
      sess.inviteCode = generateCode [0, 1, 2, 3, 4, 5] ∧
      (generateCode [0, 1, 2, 3, 4, 5]).length = 6 ∧
      sess.players = [(1, Player.mk 1 none "Owner" "owner" 0 0 1)] ∧
      (handleCreateSession fixSt2 1 { playerId := 1, sessionId := none }
          none none none none [0, 1, 2, 3, 4, 5] "sessA").outbox =
        fixSt2.outbox ++ [(1, OutMsg.sessionCreated (generateCode [0, 1, 2, 3, 4, 5])
          "sessA" 0 1)]) ∧
    handleCreateSession fixSt2 1 { playerId := 1, sessionId := some "s9" }
        none none none none [] "x" =
      sendError fixSt2 1 "ALREADY_IN_SESSION" "Already in a session" :=
  ⟨(createSession_amended fixSt2 1 { playerId := 1, sessionId := none }
      none none none none [0, 1, 2, 3, 4, 5] "sessA").1 rfl (by decide) (by decide),
   (createSession_amended fixSt2 1 { playerId := 1, sessionId := some "s9" }
      none none none none [] "x").2 "s9" rfl⟩

-- ## Claim C4: owner departure closes the session

theorem mem_adel_ne {α β : Type} [DecidableEq α] {l : List (α × β)} {k : α} {p : α × β}
    (hk : (l.map Prod.fst).Nodup) (h : p ∈ adel l k) : p ∈ l ∧ p.1 ≠ k := by
  induction l with
  | nil => simp [adel] at h
  | cons hd t ih =>
      obtain ⟨k', v'⟩ := hd
      simp only [List.map_cons, List.nodup_cons] at hk
      by_cases hkk : k' = k
      · subst hkk
        simp only [adel, if_pos rfl] at h
        refine ⟨List.mem_cons_of_mem _ h, ?_⟩
        intro hpk
        exact hk.1 (hpk ▸ List.mem_map_of_mem Prod.fst h)
      · simp only [adel, if_neg hkk] at h
        rcases List.mem_cons.mp h with h1 | h1
        · subst h1
          exact ⟨List.mem_cons_self _ _, hkk⟩
        · obtain ⟨hm, hne⟩ := ih hk.2 h1
          exact ⟨List.mem_cons_of_mem _ hm, hne⟩

/-- C4: when the leaving client is the session's owner, `leaveSession`
deletes the session from the registry (so no lookup by invite code or by
session id succeeds afterwards), broadcasts `session_closed` to every
remaining roster member whose socket is open, and clears every remaining
member's session reference. -/
theorem owner_leave_closes (st : ServerState) (ws : Nat) (client : ClientState)
    (sid : String) (sess : Session)
    (hsid : client.sessionId = some sid)
    (hfind : findSessionById st.sessions sid = some sess)
    (hkeys : (st.sessions.map Prod.fst).Nodup)
    (hcodes : ∀ p ∈ st.sessions, p.2.inviteCode = p.1)
    (hids : (st.sessions.map fun p => p.2.id).Nodup)
    (howner : client.playerId = sess.ownerId) :
    aget (leaveSession st ws client).sessions sess.inviteCode = none ∧
    findSessionById (leaveSession st ws client).sessions sid = none ∧
    (∀ q ∈ adel sess.players client.playerId, q.2.wsId ∈ st.openWs →
      (q.2.wsId, OutMsg.sessionClosed "owner_left") ∈ (leaveSession st ws client).outbox) ∧
    (∀ q ∈ adel sess.players client.playerId, ∀ c,
      aget (leaveSession st ws client).clients q.2.wsId = some c → c.sessionId = none) := by
  have hkeysU : ((updSessionById st.sessions sid fun s =>
      { s with players := adel s.players client.playerId }).map Prod.fst).Nodup := by
    rw [keys_upd]; exact hkeys
  have hfind_none : ∀ X : List (String × Session),
      (∀ p ∈ X, ∃ q ∈ (updSessionById st.sessions sid fun s =>
        { s with players := adel s.players client.playerId }), p.1 = q.1 ∧ p.2.id = q.2.id ∧
        p.1 ≠ sess.inviteCode) →
      findSessionById X sid = none := by
    intro X hX
    apply findSessionById_none
    intro p hp hpid
    obtain ⟨q, hq, hpq1, hpq2, hpne⟩ := hX p hp
    rcases mem_upd hq with h1 | ⟨q', hq', hqq'⟩
    · obtain ⟨c0, hc0⟩ := findSessionById_mem hfind
      have heq := List.inj_on_of_nodup_map hids h1 hc0 (by rw [← hpq2, hpid, findSessionById_id hfind])
      apply hpne
      rw [hpq1, congrArg Prod.fst heq]
      exact (hcodes (c0, sess) hc0).symm ▸ rfl
    · subst hqq'
      obtain ⟨c0, hc0⟩ := findSessionById_mem hfind
      have heq := List.inj_on_of_nodup_map hids hq' hc0 (by rw [← hpq2, hpid, findSessionById_id hfind])
      apply hpne
      rw [hpq1]
      show q'.1 = sess.inviteCode
      rw [congrArg Prod.fst heq]
      exact (hcodes (c0, sess) hc0).symm ▸ rfl
  simp only [leaveSession, hsid, hfind]
  rw [if_pos howner]
  by_cases hleg : sess.inviteCode = LEGACY_INVITE ∧ adel sess.players client.playerId = []
  · rw [if_pos hleg]
    refine ⟨?_, ?_, ?_, ?_⟩
    · show aget (adel (adel _ sess.inviteCode) LEGACY_INVITE) sess.inviteCode = none
      rw [clearRefs_sessions, broadcast_sessions]
      rw [aget_adel _ _ _ (keys_adel_nodup _ hkeysU)]
      rw [hleg.1]
      simp
    · show findSessionById (adel (adel _ sess.inviteCode) LEGACY_INVITE) sid = none
      rw [clearRefs_sessions, broadcast_sessions]
      apply hfind_none
      intro p hp
      have h1 := mem_adel_ne (keys_adel_nodup _ hkeysU) hp
      have h2 := mem_adel_ne hkeysU h1.1
      exact ⟨p, h2.1, rfl, rfl, h2.2⟩
    · intro q hq hw
      show (q.2.wsId, OutMsg.sessionClosed "owner_left") ∈
        (clearRefs _ (broadcastToSession _ _ none _)).outbox
      rw [clearRefs_outbox]
      apply mem_broadcast_outbox _ _ _ _ hq
      simp [wsEligible, hw]
    · intro q hq c hc
      exact clearRefs_clears _ _ hq c hc
  · rw [if_neg hleg]
    refine ⟨?_, ?_, ?_, ?_⟩
    · show aget (adel _ sess.inviteCode) sess.inviteCode = none
      rw [clearRefs_sessions, broadcast_sessions]
      rw [aget_adel _ _ _ hkeysU]
      simp
    · show findSessionById (adel _ sess.inviteCode) sid = none
      rw [clearRefs_sessions, broadcast_sessions]
      apply hfind_none
      intro p hp
      have h2 := mem_adel_ne hkeysU hp
      exact ⟨p, h2.1, rfl, rfl, h2.2⟩
    · intro q hq hw
      show (q.2.wsId, OutMsg.sessionClosed "owner_left") ∈
        (clearRefs _ (broadcastToSession _ _ none _)).outbox
      rw [clearRefs_outbox]
      apply mem_broadcast_outbox _ _ _ _ hq
      simp [wsEligible, hw]
    · intro q hq c hc
      exact clearRefs_clears _ _ hq c hc

/-- C4 (witness): the owner of the fixture session leaves; the session is
gone from the registry and the remaining guest-view member received
`session_closed`. -/
theorem owner_leave_closes_witness :
    aget (leaveSession fixSt 1 (ClientState.mk 1 (some "s1"))).sessions fixSess.inviteCode =
      none ∧
    (fixViewer.wsId, OutMsg.sessionClosed "owner_left") ∈
      (leaveSession fixSt 1 (ClientState.mk 1 (some "s1"))).outbox := by
  have h := owner_leave_closes fixSt 1 (ClientState.mk 1 (some "s1")) "s1" fixSess
    rfl (by decide) (by decide) (by decide) (by decide) rfl
  exact ⟨h.1, h.2.2.1 (2, fixViewer) (by decide) (by decide)⟩

-- ## Claims C6 and C7: silently dropped unauthorized edits

/-- The edit-class message types: furniture and material edits plus the two
owner-only administrative actions. -/
def isEditClass : InMsg → Bool
  | .furnitureAdd _ _ _ _ _ _ => true
  | .furnitureRemove _ => true
  | .furnitureMove _ _ _ _ _ => true
  | .furnitureChangeVariation _ _ => true
  | .materialChange _ _ _ _ => true
  | .updateState _ => true
  | .linkPermissionChange _ => true
  | _ => false

/-- Does the sender fail the authorization check that guards this edit-class
message?  The furniture and material edits are guarded by `canEdit` on the
sender's role; the two administrative actions by an owner-id comparison. -/
def editDenied (m : InMsg) (role : String) (pid ownerId : Nat) : Bool :=
  match m with
  | .furnitureAdd _ _ _ _ _ _ => !canEdit role
  | .furnitureRemove _ => !canEdit role
  | .furnitureMove _ _ _ _ _ => !canEdit role
  | .furnitureChangeVariation _ _ => !canEdit role
  | .materialChange _ _ _ _ => !canEdit role
  | .updateState _ => decide (pid ≠ ownerId)
  | .linkPermissionChange _ => decide (pid ≠ ownerId)
  | _ => false

/-- Core of C6/C7: an edit-class message whose sender is a roster member
failing the authorization check guarding it leaves the whole server state
untouched — nothing is sent and nothing mutates. -/
theorem denied_edit_noop (st : ServerState) (ws : Nat) (client : ClientState)
    (sid : String) (sess : Session) (pl : Player) (m : InMsg) (draws : List Nat) (gsid : String)
    (hcl : aget st.clients ws = some client)
    (hsid : client.sessionId = some sid)
    (hfind : findSessionById st.sessions sid = some sess)
    (hp : aget sess.players client.playerId = some pl)
    (hden : editDenied m pl.role client.playerId sess.ownerId = true) :
    msgStep st ws m draws gsid = st := by
  cases m with
  | furnitureAdd a b p r pl2 pa =>
      have hce : canEdit pl.role = false := by simpa [editDenied] using hden
      unfold msgStep
      simp only [hcl]
      unfold handleFurnitureAdd
      rw [getSession_some st ws client true sid hsid]
      simp only [hfind, hp, hce, Bool.false_eq_true, if_false]
  | furnitureRemove a =>
      have hce : canEdit pl.role = false := by simpa [editDenied] using hden
      unfold msgStep
      simp only [hcl]
      unfold handleFurnitureRemove
      rw [getSession_some st ws client true sid hsid]
      simp only [hfind, hp, hce, Bool.false_eq_true, if_false]
  | furnitureMove a p r pl2 c =>
      have hce : canEdit pl.role = false := by simpa [editDenied] using hden
      unfold msgStep
      simp only [hcl]
      unfold handleFurnitureMove
      rw [getSession_some st ws client true sid hsid]
      simp only [hfind, hp, hce, Bool.false_eq_true, if_false]
  | furnitureChangeVariation a b =>
      have hce : canEdit pl.role = false := by simpa [editDenied] using hden
      unfold msgStep
      simp only [hcl]
      unfold handleFurnitureChangeVariation
      rw [getSession_some st ws client true sid hsid]
      simp only [hfind, hp, hce, Bool.false_eq_true, if_false]
  | materialChange a b c d =>
      have hce : canEdit pl.role = false := by simpa [editDenied] using hden
      unfold msgStep
      simp only [hcl]
      unfold handleMaterialChange
      rw [getSession_some st ws client true sid hsid]
      simp only [hfind, hp, hce, Bool.false_eq_true, if_false]
  | updateState px =>
      have hnotown : client.playerId ≠ sess.ownerId := by simpa [editDenied] using hden
      unfold msgStep
      simp only [hcl]
      unfold handleUpdateState
      rw [getSession_some st ws client false sid hsid]
      simp only [hfind]
      rw [if_pos hnotown]
  | linkPermissionChange lp =>
      have hnotown : client.playerId ≠ sess.ownerId := by simpa [editDenied] using hden
      unfold msgStep
      simp only [hcl]
      unfold handleLinkPermissionChange
      rw [getSession_some st ws client false sid hsid]
      simp only [hfind]
      rw [if_pos hnotown]
  | badJson => simp [editDenied] at hden
  | noType => simp [editDenied] at hden
  | createSession a b c d => simp [editDenied] at hden
  | joinSession a b c => simp [editDenied] at hden
  | leaveMsg => simp [editDenied] at hden
  | move p r => simp [editDenied] at hden
  | pointer o t => simp [editDenied] at hden
  | unknownType t => simp [editDenied] at hden

/-- C6: a roster member with role `guest-view` (necessarily distinct from the
owner id) can send any edit-class message without causing a broadcast, a
`sequenceNumber` change, or a `projectState` mutation: the outbox and the
whole session registry are left exactly as they were. -/
theorem guest_view_edit_noop (st : ServerState) (ws : Nat) (client : ClientState)
    (sid : String) (sess : Session) (pl : Player) (m : InMsg) (draws : List Nat) (gsid : String)
    (hcl : aget st.clients ws = some client)
    (hsid : client.sessionId = some sid)
    (hfind : findSessionById st.sessions sid = some sess)
    (hp : aget sess.players client.playerId = some pl)
    (hrole : pl.role = "guest-view")
    (hnotown : client.playerId ≠ sess.ownerId)
    (hm : isEditClass m = true) :
    (msgStep st ws m draws gsid).outbox = st.outbox ∧
    (msgStep st ws m draws gsid).sessions = st.sessions := by
  have hden : editDenied m pl.role client.playerId sess.ownerId = true := by
    cases m <;> simp_all [editDenied, canEdit, isEditClass]
  rw [denied_edit_noop st ws client sid sess pl m draws gsid hcl hsid hfind hp hden]
  exact ⟨rfl, rfl⟩

/-- C6 (witness): the guest-view member of the fixture sends a furniture
removal; nothing is sent and nothing changes. -/
theorem guest_view_edit_noop_witness :
    (msgStep fixSt 2 (InMsg.furnitureRemove (some "f")) [] "g").outbox = fixSt.outbox ∧
    (msgStep fixSt 2 (InMsg.furnitureRemove (some "f")) [] "g").sessions = fixSt.sessions :=
  guest_view_edit_noop fixSt 2 (ClientState.mk 2 (some "s1")) "s1" fixSess fixViewer
    (InMsg.furnitureRemove (some "f")) [] "g"
    (by decide) rfl (by decide) (by decide) rfl (by decide) rfl

/-- C7: an edit-class message whose sender fails the authorization check
guarding it produces no envelope of any kind — in particular no
`session_error` — the outbox is exactly what it was; the action is silently
dropped. -/
theorem denied_edit_silent (st : ServerState) (ws : Nat) (client : ClientState)
    (sid : String) (sess : Session) (pl : Player) (m : InMsg) (draws : List Nat) (gsid : String)
    (hcl : aget st.clients ws = some client)
    (hsid : client.sessionId = some sid)
    (hfind : findSessionById st.sessions sid = some sess)
    (hp : aget sess.players client.playerId = some pl)
    (hden : editDenied m pl.role client.playerId sess.ownerId = true) :
    (msgStep st ws m draws gsid).outbox = st.outbox := by
  rw [denied_edit_noop st ws client sid sess pl m draws gsid hcl hsid hfind hp hden]

/-- C7 (witness): the guest-edit member of the fixture — who may edit
furniture but is not the owner — sends `update_state`; no envelope (no
`session_error` in particular) is produced. -/
theorem denied_edit_silent_witness :
    (msgStep fixSt 3 (InMsg.updateState (some "y")) [] "g").outbox = fixSt.outbox :=
  denied_edit_silent fixSt 3 (ClientState.mk 3 (some "s1")) "s1" fixSess fixEditor
    (InMsg.updateState (some "y")) [] "g"
    (by decide) rfl (by decide) (by decide) (by decide)

-- ## Claim C8: sessionless clients — admin errors vs legacy fallback

/-- The two administrative message types that require an explicit session. -/
def isAdminMsg : InMsg → Bool
  | .updateState _ => true
  | .linkPermissionChange _ => true
  | _ => false

/-- The fallback-eligible message types: movement, pointer, and all furniture
and material edits. -/
def isFallback : InMsg → Bool
  | .move _ _ => true
  | .pointer _ _ => true
  | .furnitureMove _ _ _ _ _ => true
  | .furnitureAdd _ _ _ _ _ _ => true
  | .furnitureRemove _ => true
  | .furnitureChangeVariation _ _ => true
  | .materialChange _ _ _ _ => true
  | _ => false

/-- C8: a client with no explicit session reference gets a `session_error`
with code `INVALID_MESSAGE` (and no session mutation) for the administrative
messages, which never auto-provision; whereas every fallback-eligible message
auto-provisions the legacy session and adds the sender to its roster with
role `owner`. -/
theorem sessionless_admin_vs_fallback (st : ServerState) (ws : Nat) (client : ClientState)
    (draws : List Nat) (gsid : String)
    (hWF : SessionsWF st.sessions)
    (hcl : aget st.clients ws = some client)
    (hns : client.sessionId = none)
    (hopen : ws ∈ st.openWs) :
    (∀ m, isAdminMsg m = true →
      (msgStep st ws m draws gsid).sessions = st.sessions ∧
      (msgStep st ws m draws gsid).outbox =
        st.outbox ++ [(ws, OutMsg.sessionError "INVALID_MESSAGE" "Not in a session")]) ∧
    (∀ m, isFallback m = true →
      ∃ ls p, aget (msgStep st ws m draws gsid).sessions LEGACY_INVITE = some ls ∧
        aget ls.players client.playerId = some p ∧ p.role = "owner") := by
  obtain ⟨hkeys, hcodes, hids, h4⟩ := hWF
  constructor
  · intro m hm
    cases m with
    | updateState px =>
        unfold msgStep
        simp only [hcl]
        unfold handleUpdateState
        rw [getSession_none_noauto st ws client hns]
        refine ⟨sendError_sessions .., ?_⟩
        rw [sendError_outbox]
        simp only [hopen, if_pos]
    | linkPermissionChange lp =>
        unfold msgStep
        simp only [hcl]
        unfold handleLinkPermissionChange
        rw [getSession_none_noauto st ws client hns]
        refine ⟨sendError_sessions .., ?_⟩
        rw [sendError_outbox]
        simp only [hopen, if_pos]
    | badJson => simp [isAdminMsg] at hm
    | noType => simp [isAdminMsg] at hm
    | createSession a b c d => simp [isAdminMsg] at hm
    | joinSession a b c => simp [isAdminMsg] at hm
    | leaveMsg => simp [isAdminMsg] at hm
    | move p r => simp [isAdminMsg] at hm
    | pointer o t => simp [isAdminMsg] at hm
    | furnitureMove a p r pl c => simp [isAdminMsg] at hm
    | furnitureAdd a b p r pl pa => simp [isAdminMsg] at hm
    | furnitureRemove a => simp [isAdminMsg] at hm
    | furnitureChangeVariation a b => simp [isAdminMsg] at hm
    | materialChange a b c d => simp [isAdminMsg] at hm
    | unknownType t => simp [isAdminMsg] at hm
  · intro m hm
    cases m with
    | move p r =>
        unfold msgStep
        simp only [hcl]
        unfold handleMove
        rw [getSession_none_auto st ws client hns]
        simp only [legacy_snd, broadcast_sessions, legacy_fst_sessions]
        refine ⟨_, { legacyPlayer ws client with
            position := p.getD (legacyPlayer ws client).position,
            rotation := r.getD (legacyPlayer ws client).rotation },
          legacy_upd_aget st ws client _ hids h4, ?_, rfl⟩
        simp only [legacyJoined_players_self]
        exact aget_aset_self ..
    | pointer o t =>
        unfold msgStep
        simp only [hcl]
        unfold handlePointer
        rw [getSession_none_auto st ws client hns]
        simp only [legacy_snd, broadcast_sessions, legacy_fst_sessions]
        exact ⟨legacyJoined st ws client, legacyPlayer ws client, aget_aset_self ..,
          legacyJoined_players_self .., rfl⟩
    | furnitureAdd a b p r pl pa =>
        unfold msgStep
        simp only [hcl]
        show ∃ ls q, aget (handleFurnitureAdd st ws client a b p r pl pa).sessions
            LEGACY_INVITE = some ls ∧ aget ls.players client.playerId = some q ∧
            q.role = "owner"
        rw [handleFurnitureAdd_sessions]
        unfold furnSessions
        simp only [hns, if_true]
        exact ⟨bumpSeq (legacyJoined st ws client), legacyPlayer ws client,
          legacy_upd_aget st ws client bumpSeq hids h4, legacyJoined_players_self .., rfl⟩
    | furnitureRemove a =>
        unfold msgStep
        simp only [hcl]
        show ∃ ls q, aget (handleFurnitureRemove st ws client a).sessions
            LEGACY_INVITE = some ls ∧ aget ls.players client.playerId = some q ∧
            q.role = "owner"
        rw [handleFurnitureRemove_sessions]
        unfold furnSessions
        simp only [hns, if_true]
        exact ⟨bumpSeq (legacyJoined st ws client), legacyPlayer ws client,
          legacy_upd_aget st ws client bumpSeq hids h4, legacyJoined_players_self .., rfl⟩
    | furnitureChangeVariation a b =>
        unfold msgStep
        simp only [hcl]
        show ∃ ls q, aget (handleFurnitureChangeVariation st ws client a b).sessions
            LEGACY_INVITE = some ls ∧ aget ls.players client.playerId = some q ∧
            q.role = "owner"
        rw [handleFurnitureChangeVariation_sessions]
        unfold furnSessions
        simp only [hns, if_true]
        exact ⟨bumpSeq (legacyJoined st ws client), legacyPlayer ws client,
          legacy_upd_aget st ws client bumpSeq hids h4, legacyJoined_players_self .., rfl⟩
    | materialChange a b c d =>
        unfold msgStep
        simp only [hcl]
        show ∃ ls q, aget (handleMaterialChange st ws client a b c d).sessions
            LEGACY_INVITE = some ls ∧ aget ls.players client.playerId = some q ∧
            q.role = "owner"
        rw [handleMaterialChange_sessions]
        unfold furnSessions
        simp only [hns, if_true]
        exact ⟨bumpSeq (legacyJoined st ws client), legacyPlayer ws client,
          legacy_upd_aget st ws client bumpSeq hids h4, legacyJoined_players_self .., rfl⟩
    | furnitureMove a p r pl c =>
        unfold msgStep
        simp only [hcl]
        show ∃ ls q, aget (handleFurnitureMove st ws client a p r pl c).sessions
            LEGACY_INVITE = some ls ∧ aget ls.players client.playerId = some q ∧
            q.role = "owner"
        rw [handleFurnitureMove_sessions]
        unfold furnSessions
        simp only [hns]
        cases c with
        | true =>
            simp only [if_true]
            exact ⟨bumpSeq (legacyJoined st ws client), legacyPlayer ws client,
              legacy_upd_aget st ws client bumpSeq hids h4, legacyJoined_players_self .., rfl⟩
        | false =>
            simp only [Bool.false_eq_true, if_false]
            exact ⟨legacyJoined st ws client, legacyPlayer ws client, aget_aset_self ..,
              legacyJoined_players_self .., rfl⟩
    | badJson => simp [isFallback] at hm
    | noType => simp [isFallback] at hm
    | createSession a b c d => simp [isFallback] at hm
    | joinSession a b c => simp [isFallback] at hm
    | leaveMsg => simp [isFallback] at hm
    | updateState px => simp [isFallback] at hm
    | linkPermissionChange lp => simp [isFallback] at hm
    | unknownType t => simp [isFallback] at hm

/-- C8 (witness): the sessionless client 4 of the fixture — `update_state`
draws an `INVALID_MESSAGE` error and leaves the registry alone, while a
`move` auto-provisions the legacy session with client 4 as owner. -/
theorem sessionless_admin_vs_fallback_witness :
    ((msgStep fixSt 4 (InMsg.updateState (some "z")) [] "g").outbox =
      fixSt.outbox ++ [(4, OutMsg.sessionError "INVALID_MESSAGE" "Not in a session")]) ∧
    (∃ ls p, aget (msgStep fixSt 4 (InMsg.move (some 7) none) [] "g").sessions
        LEGACY_INVITE = some ls ∧ aget ls.players 4 = some p ∧ p.role = "owner") := by
  have h := sessionless_admin_vs_fallback fixSt 4 (ClientState.mk 4 none) [] "g"
    ⟨by decide, by decide, by decide, by decide⟩ (by decide) rfl (by decide)
  exact ⟨(h.1 (InMsg.updateState (some "z")) rfl).2, h.2 (InMsg.move (some 7) none) rfl⟩

-- ## Claim C9: join-role derivation

/-- C9: on a successful `join_session` (session found, link permission not
`none`, roster under capacity), the joiner's roster entry gets role `owner`
exactly when the supplied identity is non-null and equals the session's
owner identity; otherwise `guest-edit` when the link permission is `edit`
and `guest-view` otherwise.  The hypothesis `howner` records that a stored
owner identity is never the empty string (creation coerces `""` to null),
which separates JavaScript's truthiness test from plain non-nullness. -/
theorem join_role_derivation (st : ServerState) (ws : Nat) (client : ClientState)
    (inviteCode userId userName : Option String) (code : String) (sess : Session)
    (hns : client.sessionId = none)
    (hic : inviteCode = some code)
    (hsess : aget st.sessions code = some sess)
    (hperm : sess.linkPermission ≠ "none")
    (hcap : sess.players.length < 25)
    (howner : sess.ownerUserId ≠ some "") :
    ∃ sess' q,
      aget (handleJoinSession st ws client inviteCode userId userName).sessions code =
        some sess' ∧
      aget sess'.players client.playerId = some q ∧
      ((q.role = "owner") ↔ (userId ≠ none ∧ userId = sess.ownerUserId)) ∧
      (¬ (userId ≠ none ∧ userId = sess.ownerUserId) →
        q.role = (if sess.linkPermission = "edit" then "guest-edit" else "guest-view")) := by
  subst hic
  refine ⟨{ sess with
              players := aset sess.players client.playerId
                (Player.mk client.playerId (coerceId userId) (orElseStr userName "Guest") (joinRole userId sess) 0 0 ws) },
          Player.mk client.playerId (coerceId userId) (orElseStr userName "Guest") (joinRole userId sess) 0 0 ws,
          ?_, ?_, ?_, ?_⟩
  · unfold handleJoinSession
    have h1 : client.sessionId.isSome = false := by simp [hns]
    rw [h1]
    simp only [Bool.false_eq_true, if_false, hsess]
    rw [if_neg hperm, if_neg (by omega)]
    simp only [broadcast_sessions, send_sessions]
    exact aget_aset_self ..
  · exact aget_aset_self ..
  · cases userId with
    | none =>
        show (if sess.linkPermission = "edit" then "guest-edit" else "guest-view") = "owner" ↔
          ((none : Option String) ≠ none ∧ (none : Option String) = sess.ownerUserId)
        constructor
        · intro hbase
          exfalso
          revert hbase
          split <;> decide
        · intro hr
          exact absurd rfl hr.1
    | some u =>
        show (if u ≠ "" ∧ sess.ownerUserId = some u then "owner"
            else if sess.linkPermission = "edit" then "guest-edit" else "guest-view") = "owner" ↔
          (some u ≠ none ∧ some u = sess.ownerUserId)
        by_cases hcond : u ≠ "" ∧ sess.ownerUserId = some u
        · rw [if_pos hcond]
          constructor
          · intro _
            exact ⟨by simp, hcond.2.symm⟩
          · intro _
            rfl
        · rw [if_neg hcond]
          constructor
          · intro hbase
            exfalso
            revert hbase
            split <;> decide
          · intro hr
            exfalso
            apply hcond
            refine ⟨?_, hr.2.symm⟩
            intro hu
            exact howner (by rw [← hr.2, hu])
  · intro hno
    cases userId with
    | none => rfl
    | some u =>
        show (if u ≠ "" ∧ sess.ownerUserId = some u then "owner"
            else if sess.linkPermission = "edit" then "guest-edit" else "guest-view") =
          (if sess.linkPermission = "edit" then "guest-edit" else "guest-view")
        rw [if_neg]
        intro hcond
        exact hno ⟨by simp, hcond.2.symm⟩

/-- C9 (witness): client 4 joins the fixture session supplying the owner's
identity token and is assigned role `owner`. -/
theorem join_role_derivation_witness :
    ∃ sess' q,
      aget (handleJoinSession fixSt 4 (ClientState.mk 4 none) (some "ABCDEF") (some "u1")
        none).sessions "ABCDEF" = some sess' ∧
      aget sess'.players 4 = some q ∧ q.role = "owner" := by
  obtain ⟨sess', q, h1, h2, h3, h4⟩ :=
    join_role_derivation fixSt 4 (ClientState.mk 4 none) (some "ABCDEF") (some "u1") none
      "ABCDEF" fixSess rfl rfl (by decide) (by decide) (by decide) (by decide)
  exact ⟨sess', q, h1, h2, h3.mpr ⟨by decide, by decide⟩⟩

-- ## Claim C10: falsy link permission defaults to edit

/-- C10: a `link_permission_change` from the session owner whose
`linkPermission` field is missing or empty sets the session's link
permission to `"edit"` and broadcasts `link_permission_changed` carrying
`"edit"` to every roster member with an open socket — the sender included
(the broadcast excludes no one). -/
theorem link_permission_falsy_edit (st : ServerState) (ws : Nat) (client : ClientState)
    (sid : String) (sess : Session) (lp : Option String)
    (hsid : client.sessionId = some sid)
    (hfind : findSessionById st.sessions sid = some sess)
    (hown : client.playerId = sess.ownerId)
    (hpre : aget st.sessions sess.inviteCode = some sess)
    (hids : (st.sessions.map fun p => p.2.id).Nodup)
    (hlp : lp = none ∨ lp = some "") :
    aget (handleLinkPermissionChange st ws client lp).sessions sess.inviteCode =
      some { sess with linkPermission := "edit" } ∧
    ∀ q ∈ sess.players, q.2.wsId ∈ st.openWs →
      (q.2.wsId, OutMsg.linkPermissionChanged "edit") ∈
        (handleLinkPermissionChange st ws client lp).outbox := by
  have hperm : orElseStr lp "edit" = "edit" := by
    rcases hlp with rfl | rfl <;> rfl
  have hsessid : sess.id = sid := findSessionById_id hfind
  unfold handleLinkPermissionChange
  rw [getSession_some st ws client false sid hsid]
  simp only [hfind]
  rw [if_neg (fun hne => hne hown)]
  simp only [hperm]
  constructor
  · rw [broadcast_sessions]
    rw [aget_upd _ _ _ _ hids, hpre]
    simp [hsessid]
  · intro q hq hw
    apply mem_broadcast_outbox _ _ _ _ hq
    simp [wsEligible, hw]

/-- C10 (witness): the fixture owner sends `link_permission_change` with an
empty permission; the session flips to `edit` and the guest-view member
receives the broadcast. -/
theorem link_permission_falsy_edit_witness :
    aget (handleLinkPermissionChange fixSt 1 (ClientState.mk 1 (some "s1"))
        (some "")).sessions fixSess.inviteCode =
      some { fixSess with linkPermission := "edit" } ∧
    (fixViewer.wsId, OutMsg.linkPermissionChanged "edit") ∈
      (handleLinkPermissionChange fixSt 1 (ClientState.mk 1 (some "s1")) (some "")).outbox := by
  have h := link_permission_falsy_edit fixSt 1 (ClientState.mk 1 (some "s1")) "s1" fixSess
    (some "") rfl (by decide) rfl (by decide) (by decide) (Or.inr rfl)
  exact ⟨h.1, h.2 (2, fixViewer) (by decide) (by decide)⟩

-- ## Claim C5: legacy-session lifecycle machinery

theorem aget_none_iff_keys {α β : Type} [DecidableEq α] (l : List (α × β)) (k : α) :
    aget l k = none ↔ k ∉ l.map Prod.fst := by
  induction l with
  | nil => simp [aget]
  | cons hd t ih =>
      obtain ⟨k', v'⟩ := hd
      by_cases hk : k' = k
      · subst hk; simp [aget]
      · simp [aget, hk, ih, Ne.symm hk]

theorem upd_aget_none_iff (l : List (String × Session)) (sid : String) (f : Session → Session)
    (k : String) : aget (updSessionById l sid f) k = none ↔ aget l k = none := by
  rw [aget_none_iff_keys, aget_none_iff_keys, keys_upd]

theorem aset_aget_none_iff {α β : Type} [DecidableEq α] (l : List (α × β)) (c k : α) (v : β) :
    aget (aset l c v) k = none ↔ (aget l k = none ∧ k ≠ c) := by
  induction l with
  | nil =>
      simp only [aset, aget]
      by_cases hck : c = k
      · subst hck
        simp
      · simp [hck, Ne.symm hck]
  | cons hd t ih =>
      obtain ⟨k', v'⟩ := hd
      by_cases hk : k' = c
      · subst hk
        simp only [aset, if_pos rfl, aget]
        by_cases hck : k' = k
        · subst hck
          simp
        · simp only [if_neg hck]
          constructor
          · intro h
            refine ⟨?_, fun hkk => hck hkk.symm⟩
            simp [aget, hck, h]
          · intro ⟨h1, _⟩
            simpa [aget, hck] using h1
      · simp only [aset, if_neg hk, aget]
        by_cases hck : k' = k
        · subst hck
          simp only [if_pos rfl]
          constructor
          · intro h; cases h
          · intro ⟨h1, _⟩; cases h1
        · simp only [if_neg hck]
          exact ih

theorem adel_aget_none {α β : Type} [DecidableEq α] {l : List (α × β)} {k : α} (c : α)
    (h : aget l k = none) : aget (adel l c) k = none := by
  rw [aget_none_iff_keys] at h ⊢
  intro hmem
  exact h ((keys_adel_sublist l c).subset hmem)

theorem leaveSession_keys_sub {st : ServerState} {ws : Nat} {client : ClientState}
    {p : String × Session} (hp : p ∈ (leaveSession st ws client).sessions) :
    ∃ q ∈ st.sessions, p.1 = q.1 := by
  unfold leaveSession at hp
  cases hs : client.sessionId with
  | none => simp only [hs] at hp; exact ⟨p, hp, rfl⟩
  | some sid =>
      simp only [hs] at hp
      cases hf : findSessionById st.sessions sid with
      | none => simp only [hf] at hp; exact ⟨p, hp, rfl⟩
      | some session =>
          simp only [hf] at hp
          have hupdmem : ∀ {r : String × Session},
              r ∈ (updSessionById st.sessions sid fun s =>
                { s with players := adel s.players client.playerId }) →
              ∃ q ∈ st.sessions, r.1 = q.1 := by
            intro r hr
            rcases mem_upd hr with h1 | ⟨q, hq, hpq⟩
            · exact ⟨r, h1, rfl⟩
            · exact ⟨q, hq, by rw [hpq]⟩
          by_cases howner : client.playerId = session.ownerId
          · by_cases hleg : session.inviteCode = LEGACY_INVITE ∧
                adel session.players client.playerId = []
            · simp only [if_pos howner, if_pos hleg, clearRefs_sessions,
                broadcast_sessions] at hp
              exact hupdmem (mem_adel (mem_adel hp))
            · simp only [if_pos howner, if_neg hleg, clearRefs_sessions,
                broadcast_sessions] at hp
              exact hupdmem (mem_adel hp)
          · by_cases hleg : session.inviteCode = LEGACY_INVITE ∧
                adel session.players client.playerId = []
            · simp only [if_neg howner, if_pos hleg, broadcast_sessions] at hp
              exact hupdmem (mem_adel hp)
            · simp only [if_neg howner, if_neg hleg, broadcast_sessions] at hp
              exact hupdmem hp

theorem leaveSession_aget_none (st : ServerState) (ws : Nat) (client : ClientState) (k : String)
    (hnone : aget st.sessions k = none) :
    aget (leaveSession st ws client).sessions k = none := by
  cases hres : aget (leaveSession st ws client).sessions k with
  | none => rfl
  | some v =>
      exfalso
      obtain ⟨q, hq, hpq⟩ := leaveSession_keys_sub (aget_mem hres)
      exact aget_none_not_mem hnone q.2 (by rw [show k = q.1 from hpq]; exact hq)

theorem leaveSession_legacy_removed (st : ServerState) (ws : Nat) (client : ClientState)
    (ls : Session)
    (hkeys : (st.sessions.map Prod.fst).Nodup)
    (hcodes : ∀ p ∈ st.sessions, p.2.inviteCode = p.1)
    (hls : aget st.sessions LEGACY_INVITE = some ls)
    (hpost : aget (leaveSession st ws client).sessions LEGACY_INVITE = none) :
    client.sessionId = some ls.id ∧
      (adel ls.players client.playerId = [] ∨ client.playerId = ls.ownerId) := by
  unfold leaveSession at hpost
  cases hs : client.sessionId with
  | none =>
      simp only [hs] at hpost
      rw [hls] at hpost
      cases hpost
  | some sid =>
      simp only [hs] at hpost
      cases hf : findSessionById st.sessions sid with
      | none =>
          simp only [hf] at hpost
          rw [hls] at hpost
          cases hpost
      | some session =>
          simp only [hf] at hpost
          have hkeysU : ((updSessionById st.sessions sid fun s =>
              { s with players := adel s.players client.playerId }).map Prod.fst).Nodup := by
            rw [keys_upd]; exact hkeys
          have hL1some : aget (updSessionById st.sessions sid fun s =>
              { s with players := adel s.players client.playerId }) LEGACY_INVITE ≠ none := by
            intro hc
            rw [upd_aget_none_iff, hls] at hc
            cases hc
          by_cases hinv : session.inviteCode = LEGACY_INVITE
          · obtain ⟨c0, hc0⟩ := findSessionById_mem hf
            have hc0eq : c0 = LEGACY_INVITE := by
              rw [← hinv]
              exact (hcodes (c0, session) hc0).symm
            have hget : aget st.sessions LEGACY_INVITE = some session := by
              rw [← hc0eq]
              exact aget_eq_of_mem_nodup hkeys hc0
            rw [hls] at hget
            have hsess_ls : session = ls := (Option.some.inj hget).symm
            refine ⟨?_, ?_⟩
            · rw [← hsess_ls, findSessionById_id hf]
            · by_cases howner : client.playerId = session.ownerId
              · right
                rw [← hsess_ls]
                exact howner
              · by_cases hleg : session.inviteCode = LEGACY_INVITE ∧
                    adel session.players client.playerId = []
                · left
                  rw [← hsess_ls]
                  exact hleg.2
                · exfalso
                  rw [if_neg hleg, if_neg howner] at hpost
                  simp only [broadcast_sessions] at hpost
                  exact hL1some hpost
          · exfalso
            have hlegF : ¬ (session.inviteCode = LEGACY_INVITE ∧
                adel session.players client.playerId = []) := fun hc => hinv hc.1
            rw [if_neg hlegF] at hpost
            by_cases howner : client.playerId = session.ownerId
            · rw [if_pos howner] at hpost
              simp only [clearRefs_sessions, broadcast_sessions] at hpost
              rw [aget_adel _ _ _ hkeysU] at hpost
              rw [if_neg (fun h => hinv h.symm)] at hpost
              exact hL1some hpost
            · rw [if_neg howner] at hpost
              simp only [broadcast_sessions] at hpost
              exact hL1some hpost

theorem handleJoinSession_aget_none (st : ServerState) (ws : Nat) (client : ClientState)
    (ic uid un : Option String) (k : String)
    (hnone : aget st.sessions k = none) :
    aget (handleJoinSession st ws client ic uid un).sessions k = none := by
  unfold handleJoinSession
  by_cases h1 : client.sessionId.isSome
  · rw [if_pos h1, sendError_sessions]; exact hnone
  · rw [if_neg h1]
    cases ic with
    | none => simp only [sendError_sessions]; exact hnone
    | some c =>
        cases hg : aget st.sessions c with
        | none => simp only [hg, sendError_sessions]; exact hnone
        | some session =>
            simp only [hg]
            by_cases hperm : session.linkPermission = "none"
            · rw [if_pos hperm, sendError_sessions]; exact hnone
            · rw [if_neg hperm]
              by_cases hcap : 25 ≤ session.players.length
              · rw [if_pos hcap, sendError_sessions]; exact hnone
              · rw [if_neg hcap]
                simp only [broadcast_sessions, send_sessions]
                refine (aset_aget_none_iff ..).mpr ⟨hnone, ?_⟩
                intro hkc
                rw [hkc, hg] at hnone
                cases hnone

theorem handleJoinSession_aget_none_rev (st : ServerState) (ws : Nat) (client : ClientState)
    (ic uid un : Option String) (k : String)
    (hpost : aget (handleJoinSession st ws client ic uid un).sessions k = none) :
    aget st.sessions k = none := by
  unfold handleJoinSession at hpost
  by_cases h1 : client.sessionId.isSome
  · rw [if_pos h1, sendError_sessions] at hpost; exact hpost
  · rw [if_neg h1] at hpost
    cases ic with
    | none => simp only [sendError_sessions] at hpost; exact hpost
    | some c =>
        cases hg : aget st.sessions c with
        | none => simp only [hg, sendError_sessions] at hpost; exact hpost
        | some session =>
            simp only [hg] at hpost
            by_cases hperm : session.linkPermission = "none"
            · rw [if_pos hperm, sendError_sessions] at hpost; exact hpost
            · rw [if_neg hperm] at hpost
              by_cases hcap : 25 ≤ session.players.length
              · rw [if_pos hcap, sendError_sessions] at hpost; exact hpost
              · rw [if_neg hcap] at hpost
                simp only [broadcast_sessions, send_sessions] at hpost
                exact ((aset_aget_none_iff ..).mp hpost).1

theorem furnSessions_aget_none (st : ServerState) (ws : Nat) (client : ClientState)
    (bump : Bool) (k sid : String)
    (hs : client.sessionId = some sid)
    (hnone : aget st.sessions k = none) :
    aget (furnSessions st ws client bump) k = none := by
  unfold furnSessions
  simp only [hs]
  cases hf : findSessionById st.sessions sid with
  | none => simp only [hf]; exact hnone
  | some s =>
      simp only [hf]
      cases hq : aget s.players client.playerId with
      | none => simp only [hq]; exact hnone
      | some q =>
          simp only [hq]
          by_cases hce : canEdit q.role
          · rw [if_pos hce]
            cases bump with
            | false => simp only [Bool.false_eq_true, if_false]; exact hnone
            | true => simp only [if_true]; exact (upd_aget_none_iff ..).mpr hnone
          · rw [if_neg hce]; exact hnone

theorem furnSessions_aget_none_rev (st : ServerState) (ws : Nat) (client : ClientState)
    (bump : Bool) (k sid : String)
    (hs : client.sessionId = some sid)
    (hpost : aget (furnSessions st ws client bump) k = none) :
    aget st.sessions k = none := by
  unfold furnSessions at hpost
  simp only [hs] at hpost
  cases hf : findSessionById st.sessions sid with
  | none => simp only [hf] at hpost; exact hpost
  | some s =>
      simp only [hf] at hpost
      cases hq : aget s.players client.playerId with
      | none => simp only [hq] at hpost; exact hpost
      | some q =>
          simp only [hq] at hpost
          by_cases hce : canEdit q.role
          · rw [if_pos hce] at hpost
            cases bump with
            | false =>
                simp only [Bool.false_eq_true, if_false] at hpost
                exact hpost
            | true =>
                simp only [if_true] at hpost
                exact (upd_aget_none_iff ..).mp hpost
          · rw [if_neg hce] at hpost; exact hpost

theorem furnSessions_sessionless_legacy (st : ServerState) (ws : Nat) (client : ClientState)
    (bump : Bool) (hs : client.sessionId = none) :
    aget (furnSessions st ws client bump) LEGACY_INVITE ≠ none := by
  unfold furnSessions
  simp only [hs]
  cases bump with
  | false =>
      simp only [Bool.false_eq_true, if_false]
      intro hc
      exact ((aset_aget_none_iff ..).mp hc).2 rfl
  | true =>
      simp only [if_true]
      intro hc
      rw [upd_aget_none_iff] at hc
      exact ((aset_aget_none_iff ..).mp hc).2 rfl

/-- C5 (amended): the legacy session is absent from the registry until the
first fallback-eligible message (move, pointer, or furniture/material edit)
arrives from a client with no explicit session; and it disappears from the
registry only through a leave or disconnect by a member whose departure
either empties its roster or — the amendment — is the legacy session's
recorded `ownerId`, in which case the generic owner-left teardown deletes it
even while other members remain (see the counterexample). -/
theorem legacy_lifecycle_step (st : ServerState) (e : Event) (hWF : SessionsWF st.sessions) :
    (aget st.sessions LEGACY_INVITE = none →
      ∀ ls, aget (step st e).sessions LEGACY_INVITE = some ls →
        ∃ ws m draws gsid, e = Event.message ws m draws gsid ∧ isFallback m = true ∧
          ∃ client, aget st.clients ws = some client ∧ client.sessionId = none) ∧
    (∀ ls, aget st.sessions LEGACY_INVITE = some ls →
      aget (step st e).sessions LEGACY_INVITE = none →
      ∃ ws client, aget st.clients ws = some client ∧ client.sessionId = some ls.id ∧
        ((∃ draws gsid, e = Event.message ws InMsg.leaveMsg draws gsid) ∨
          e = Event.disconnect ws) ∧
        (adel ls.players client.playerId = [] ∨ client.playerId = ls.ownerId)) := by
  obtain ⟨hkeys, hcodes, hids, h4⟩ := hWF
  constructor
  · intro hnone ls hls
    cases e with
    | connect ws =>
        rw [show (step st (Event.connect ws)).sessions = st.sessions from rfl, hnone] at hls
        cases hls
    | disconnect ws =>
        unfold step at hls
        cases hg : aget (ServerState.clients { st with openWs := st.openWs.erase ws }) ws with
        | none =>
            simp only [hg] at hls
            rw [hnone] at hls
            cases hls
        | some c =>
            simp only [hg] at hls
            by_cases hcs : c.sessionId.isSome
            · simp only [hcs, if_true] at hls
              rw [leaveSession_aget_none { st with openWs := st.openWs.erase ws } ws c
                LEGACY_INVITE hnone] at hls
              cases hls
            · simp only [hcs, Bool.false_eq_true, if_false] at hls
              rw [hnone] at hls
              cases hls
    | message ws m draws gsid =>
        rw [show (step st (Event.message ws m draws gsid)).sessions =
          (msgStep st ws m draws gsid).sessions from rfl] at hls
        unfold msgStep at hls
        cases m with
        | badJson =>
            rw [sendError_sessions, hnone] at hls
            cases hls
        | noType =>
            rw [sendError_sessions, hnone] at hls
            cases hls
        | unknownType t =>
            cases hcl : aget st.clients ws with
            | none => simp only [hcl] at hls; rw [hnone] at hls; cases hls
            | some client => simp only [hcl] at hls; rw [hnone] at hls; cases hls
        | createSession a b c d =>
            cases hcl : aget st.clients ws with
            | none => simp only [hcl] at hls; rw [hnone] at hls; cases hls
            | some client =>
                simp only [hcl] at hls
                unfold handleCreateSession at hls
                by_cases h1 : client.sessionId.isSome
                · rw [if_pos h1, sendError_sessions, hnone] at hls
                  cases hls
                · rw [if_neg h1] at hls
                  cases hdev : devJoinTarget st.sessions with
                  | some c' =>
                      simp only [hdev] at hls
                      rw [handleJoinSession_aget_none st ws client (some c') a b
                        LEGACY_INVITE hnone] at hls
                      cases hls
                  | none =>
                      simp only [hdev, send_sessions] at hls
                      rw [(aset_aget_none_iff ..).mpr
                        ⟨hnone, fun h => generateCode_ne_legacy draws h.symm⟩] at hls
                      cases hls
        | joinSession a b c =>
            cases hcl : aget st.clients ws with
            | none => simp only [hcl] at hls; rw [hnone] at hls; cases hls
            | some client =>
                simp only [hcl] at hls
                rw [handleJoinSession_aget_none st ws client a b c LEGACY_INVITE hnone] at hls
                cases hls
        | leaveMsg =>
            cases hcl : aget st.clients ws with
            | none => simp only [hcl] at hls; rw [hnone] at hls; cases hls
            | some client =>
                simp only [hcl] at hls
                rw [leaveSession_aget_none st ws client LEGACY_INVITE hnone] at hls
                cases hls
        | move p r =>
            cases hcl : aget st.clients ws with
            | none => simp only [hcl] at hls; rw [hnone] at hls; cases hls
            | some client =>
                simp only [hcl] at hls
                cases hs : client.sessionId with
                | some sid =>
                    unfold handleMove at hls
                    rw [getSession_some st ws client true sid hs] at hls
                    cases hf : findSessionById st.sessions sid with
                    | none =>
                        simp only [hf] at hls
                        rw [hnone] at hls
                        cases hls
                    | some s =>
                        simp only [hf, broadcast_sessions] at hls
                        rw [(upd_aget_none_iff ..).mpr hnone] at hls
                        cases hls
                | none =>
                    exact ⟨ws, InMsg.move p r, draws, gsid, rfl, rfl, client, hcl, hs⟩
        | pointer o t =>
            cases hcl : aget st.clients ws with
            | none => simp only [hcl] at hls; rw [hnone] at hls; cases hls
            | some client =>
                simp only [hcl] at hls
                cases hs : client.sessionId with
                | some sid =>
                    unfold handlePointer at hls
                    rw [getSession_some st ws client true sid hs] at hls
                    cases hf : findSessionById st.sessions sid with
                    | none =>
                        simp only [hf] at hls
                        rw [hnone] at hls
                        cases hls
                    | some s =>
                        simp only [hf, broadcast_sessions] at hls
                        rw [hnone] at hls
                        cases hls
                | none =>
                    exact ⟨ws, InMsg.pointer o t, draws, gsid, rfl, rfl, client, hcl, hs⟩
        | furnitureMove a p r pl c =>
            cases hcl : aget st.clients ws with
            | none => simp only [hcl] at hls; rw [hnone] at hls; cases hls
            | some client =>
                simp only [hcl] at hls
                cases hs : client.sessionId with
                | some sid =>
                    rw [handleFurnitureMove_sessions,
                      furnSessions_aget_none st ws client c LEGACY_INVITE sid hs hnone] at hls
                    cases hls
                | none =>
                    exact ⟨ws, InMsg.furnitureMove a p r pl c, draws, gsid, rfl, rfl,
                      client, hcl, hs⟩
        | furnitureAdd a b p r pl pa =>
            cases hcl : aget st.clients ws with
            | none => simp only [hcl] at hls; rw [hnone] at hls; cases hls
            | some client =>
                simp only [hcl] at hls
                cases hs : client.sessionId with
                | some sid =>
                    rw [handleFurnitureAdd_sessions,
                      furnSessions_aget_none st ws client true LEGACY_INVITE sid hs hnone] at hls
                    cases hls
                | none =>
                    exact ⟨ws, InMsg.furnitureAdd a b p r pl pa, draws, gsid, rfl, rfl,
                      client, hcl, hs⟩
        | furnitureRemove a =>
            cases hcl : aget st.clients ws with
            | none => simp only [hcl] at hls; rw [hnone] at hls; cases hls
            | some client =>
                simp only [hcl] at hls
                cases hs : client.sessionId with
                | some sid =>
                    rw [handleFurnitureRemove_sessions,
                      furnSessions_aget_none st ws client true LEGACY_INVITE sid hs hnone] at hls
                    cases hls
                | none =>
                    exact ⟨ws, InMsg.furnitureRemove a, draws, gsid, rfl, rfl, client, hcl, hs⟩
        | furnitureChangeVariation a b =>
            cases hcl : aget st.clients ws with
            | none => simp only [hcl] at hls; rw [hnone] at hls; cases hls
            | some client =>
                simp only [hcl] at hls
                cases hs : client.sessionId with
                | some sid =>
                    rw [handleFurnitureChangeVariation_sessions,
                      furnSessions_aget_none st ws client true LEGACY_INVITE sid hs hnone] at hls
                    cases hls
                | none =>
                    exact ⟨ws, InMsg.furnitureChangeVariation a b, draws, gsid, rfl, rfl,
                      client, hcl, hs⟩
        | materialChange a b c d =>
            cases hcl : aget st.clients ws with
            | none => simp only [hcl] at hls; rw [hnone] at hls; cases hls
            | some client =>
                simp only [hcl] at hls
                cases hs : client.sessionId with
                | some sid =>
                    rw [handleMaterialChange_sessions,
                      furnSessions_aget_none st ws client true LEGACY_INVITE sid hs hnone] at hls
                    cases hls
                | none =>
                    exact ⟨ws, InMsg.materialChange a b c d, draws, gsid, rfl, rfl,
                      client, hcl, hs⟩
        | updateState px =>
            cases hcl : aget st.clients ws with
            | none => simp only [hcl] at hls; rw [hnone] at hls; cases hls
            | some client =>
                simp only [hcl] at hls
                unfold handleUpdateState at hls
                cases hs : client.sessionId with
                | none =>
                    rw [getSession_none_noauto st ws client hs] at hls
                    simp only [sendError_sessions] at hls
                    rw [hnone] at hls
                    cases hls
                | some sid =>
                    rw [getSession_some st ws client false sid hs] at hls
                    cases hf : findSessionById st.sessions sid with
                    | none =>
                        simp only [hf] at hls
                        rw [hnone] at hls
                        cases hls
                    | some s =>
                        simp only [hf] at hls
                        by_cases hown : client.playerId ≠ s.ownerId
                        · rw [if_pos hown, hnone] at hls
                          cases hls
                        · rw [if_neg hown] at hls
                          rw [(upd_aget_none_iff ..).mpr hnone] at hls
                          cases hls
        | linkPermissionChange lp =>
            cases hcl : aget st.clients ws with
            | none => simp only [hcl] at hls; rw [hnone] at hls; cases hls
            | some client =>
                simp only [hcl] at hls
                unfold handleLinkPermissionChange at hls
                cases hs : client.sessionId with
                | none =>
                    rw [getSession_none_noauto st ws client hs] at hls
                    simp only [sendError_sessions] at hls
                    rw [hnone] at hls
                    cases hls
                | some sid =>
                    rw [getSession_some st ws client false sid hs] at hls
                    cases hf : findSessionById st.sessions sid with
                    | none =>
                        simp only [hf] at hls
                        rw [hnone] at hls
                        cases hls
                    | some s =>
                        simp only [hf] at hls
                        by_cases hown : client.playerId ≠ s.ownerId
                        · rw [if_pos hown, hnone] at hls
                          cases hls
                        · rw [if_neg hown] at hls
                          simp only [broadcast_sessions] at hls
                          rw [(upd_aget_none_iff ..).mpr hnone] at hls
                          cases hls
  · intro ls hls hpost
    cases e with
    | connect ws =>
        rw [show (step st (Event.connect ws)).sessions = st.sessions from rfl, hls] at hpost
        cases hpost
    | disconnect ws =>
        unfold step at hpost
        cases hg : aget (ServerState.clients { st with openWs := st.openWs.erase ws }) ws with
        | none =>
            simp only [hg] at hpost
            rw [hls] at hpost
            cases hpost
        | some c =>
            simp only [hg] at hpost
            by_cases hcs : c.sessionId.isSome
            · simp only [hcs, if_true] at hpost
              have h := leaveSession_legacy_removed { st with openWs := st.openWs.erase ws }
                ws c ls hkeys hcodes hls hpost
              exact ⟨ws, c, hg, h.1, Or.inr rfl, h.2⟩
            · simp only [hcs, Bool.false_eq_true, if_false] at hpost
              rw [hls] at hpost
              cases hpost
    | message ws m draws gsid =>
        rw [show (step st (Event.message ws m draws gsid)).sessions =
          (msgStep st ws m draws gsid).sessions from rfl] at hpost
        unfold msgStep at hpost
        cases m with
        | badJson =>
            rw [sendError_sessions, hls] at hpost
            cases hpost
        | noType =>
            rw [sendError_sessions, hls] at hpost
            cases hpost
        | unknownType t =>
            cases hcl : aget st.clients ws with
            | none => simp only [hcl] at hpost; rw [hls] at hpost; cases hpost
            | some client => simp only [hcl] at hpost; rw [hls] at hpost; cases hpost
        | createSession a b c d =>
            cases hcl : aget st.clients ws with
            | none => simp only [hcl] at hpost; rw [hls] at hpost; cases hpost
            | some client =>
                simp only [hcl] at hpost
                unfold handleCreateSession at hpost
                by_cases h1 : client.sessionId.isSome
                · rw [if_pos h1, sendError_sessions, hls] at hpost
                  cases hpost
                · rw [if_neg h1] at hpost
                  cases hdev : devJoinTarget st.sessions with
                  | some c' =>
                      simp only [hdev] at hpost
                      rw [handleJoinSession_aget_none_rev st ws client (some c') a b
                        LEGACY_INVITE hpost] at hls
                      cases hls
                  | none =>
                      simp only [hdev, send_sessions] at hpost
                      rw [((aset_aget_none_iff ..).mp hpost).1] at hls
                      cases hls
        | joinSession a b c =>
            cases hcl : aget st.clients ws with
            | none => simp only [hcl] at hpost; rw [hls] at hpost; cases hpost
            | some client =>
                simp only [hcl] at hpost
                rw [handleJoinSession_aget_none_rev st ws client a b c LEGACY_INVITE hpost] at hls
                cases hls
        | leaveMsg =>
            cases hcl : aget st.clients ws with
            | none => simp only [hcl] at hpost; rw [hls] at hpost; cases hpost
            | some client =>
                simp only [hcl] at hpost
                have h := leaveSession_legacy_removed st ws client ls hkeys hcodes hls hpost
                exact ⟨ws, client, hcl, h.1, Or.inl ⟨draws, gsid, rfl⟩, h.2⟩
        | move p r =>
            cases hcl : aget st.clients ws with
            | none => simp only [hcl] at hpost; rw [hls] at hpost; cases hpost
            | some client =>
                simp only [hcl] at hpost
                cases hs : client.sessionId with
                | some sid =>
                    unfold handleMove at hpost
                    rw [getSession_some st ws client true sid hs] at hpost
                    cases hf : findSessionById st.sessions sid with
                    | none =>
                        simp only [hf] at hpost
                        rw [hls] at hpost
                        cases hpost
                    | some s =>
                        simp only [hf, broadcast_sessions] at hpost
                        rw [(upd_aget_none_iff ..).mp hpost] at hls
                        cases hls
                | none =>
                    unfold handleMove at hpost
                    rw [getSession_none_auto st ws client hs] at hpost
                    simp only [legacy_snd, broadcast_sessions, legacy_fst_sessions] at hpost
                    rw [upd_aget_none_iff] at hpost
                    exact absurd rfl ((aset_aget_none_iff ..).mp hpost).2
        | pointer o t =>
            cases hcl : aget st.clients ws with
            | none => simp only [hcl] at hpost; rw [hls] at hpost; cases hpost
            | some client =>
                simp only [hcl] at hpost
                cases hs : client.sessionId with
                | some sid =>
                    unfold handlePointer at hpost
                    rw [getSession_some st ws client true sid hs] at hpost
                    cases hf : findSessionById st.sessions sid with
                    | none =>
                        simp only [hf] at hpost
                        rw [hls] at hpost
                        cases hpost
                    | some s =>
                        simp only [hf, broadcast_sessions] at hpost
                        rw [hls] at hpost
                        cases hpost
                | none =>
                    unfold handlePointer at hpost
                    rw [getSession_none_auto st ws client hs] at hpost
                    simp only [legacy_snd, broadcast_sessions, legacy_fst_sessions] at hpost
                    exact absurd rfl ((aset_aget_none_iff ..).mp hpost).2
        | furnitureMove a p r pl c =>
            cases hcl : aget st.clients ws with
            | none => simp only [hcl] at hpost; rw [hls] at hpost; cases hpost
            | some client =>
                simp only [hcl] at hpost
                rw [handleFurnitureMove_sessions] at hpost
                cases hs : client.sessionId with
                | some sid =>
                    rw [furnSessions_aget_none_rev st ws client c LEGACY_INVITE sid hs hpost]
                      at hls
                    cases hls
                | none => exact absurd hpost (furnSessions_sessionless_legacy st ws client c hs)
        | furnitureAdd a b p r pl pa =>
            cases hcl : aget st.clients ws with
            | none => simp only [hcl] at hpost; rw [hls] at hpost; cases hpost
            | some client =>
                simp only [hcl] at hpost
                rw [handleFurnitureAdd_sessions] at hpost
                cases hs : client.sessionId with
                | some sid =>
                    rw [furnSessions_aget_none_rev st ws client true LEGACY_INVITE sid hs hpost]
                      at hls
                    cases hls
                | none =>
                    exact absurd hpost (furnSessions_sessionless_legacy st ws client true hs)
        | furnitureRemove a =>
            cases hcl : aget st.clients ws with
            | none => simp only [hcl] at hpost; rw [hls] at hpost; cases hpost
            | some client =>
                simp only [hcl] at hpost
                rw [handleFurnitureRemove_sessions] at hpost
                cases hs : client.sessionId with
                | some sid =>
                    rw [furnSessions_aget_none_rev st ws client true LEGACY_INVITE sid hs hpost]
                      at hls
                    cases hls
                | none =>
                    exact absurd hpost (furnSessions_sessionless_legacy st ws client true hs)
        | furnitureChangeVariation a b =>
            cases hcl : aget st.clients ws with
            | none => simp only [hcl] at hpost; rw [hls] at hpost; cases hpost
            | some client =>
                simp only [hcl] at hpost
                rw [handleFurnitureChangeVariation_sessions] at hpost
                cases hs : client.sessionId with
                | some sid =>
                    rw [furnSessions_aget_none_rev st ws client true LEGACY_INVITE sid hs hpost]
                      at hls
                    cases hls
                | none =>
                    exact absurd hpost (furnSessions_sessionless_legacy st ws client true hs)
        | materialChange a b c d =>
            cases hcl : aget st.clients ws with
            | none => simp only [hcl] at hpost; rw [hls] at hpost; cases hpost
            | some client =>
                simp only [hcl] at hpost
                rw [handleMaterialChange_sessions] at hpost
                cases hs : client.sessionId with
                | some sid =>
                    rw [furnSessions_aget_none_rev st ws client true LEGACY_INVITE sid hs hpost]
                      at hls
                    cases hls
                | none =>
                    exact absurd hpost (furnSessions_sessionless_legacy st ws client true hs)
        | updateState px =>
            cases hcl : aget st.clients ws with
            | none => simp only [hcl] at hpost; rw [hls] at hpost; cases hpost
            | some client =>
                simp only [hcl] at hpost
                unfold handleUpdateState at hpost
                cases hs : client.sessionId with
                | none =>
                    rw [getSession_none_noauto st ws client hs] at hpost
                    simp only [sendError_sessions] at hpost
                    rw [hls] at hpost
                    cases hpost
                | some sid =>
                    rw [getSession_some st ws client false sid hs] at hpost
                    cases hf : findSessionById st.sessions sid with
                    | none =>
                        simp only [hf] at hpost
                        rw [hls] at hpost
                        cases hpost
                    | some s =>
                        simp only [hf] at hpost
                        by_cases hown : client.playerId ≠ s.ownerId
                        · rw [if_pos hown, hls] at hpost
                          cases hpost
                        · rw [if_neg hown] at hpost
                          rw [(upd_aget_none_iff ..).mp hpost] at hls
                          cases hls
        | linkPermissionChange lp =>
            cases hcl : aget st.clients ws with
            | none => simp only [hcl] at hpost; rw [hls] at hpost; cases hpost
            | some client =>
                simp only [hcl] at hpost
                unfold handleLinkPermissionChange at hpost
                cases hs : client.sessionId with
                | none =>
                    rw [getSession_none_noauto st ws client hs] at hpost
                    simp only [sendError_sessions] at hpost
                    rw [hls] at hpost
                    cases hpost
                | some sid =>
                    rw [getSession_some st ws client false sid hs] at hpost
                    cases hf : findSessionById st.sessions sid with
                    | none =>
                        simp only [hf] at hpost
                        rw [hls] at hpost
                        cases hpost
                    | some s =>
                        simp only [hf] at hpost
                        by_cases hown : client.playerId ≠ s.ownerId
                        · rw [if_pos hown, hls] at hpost
                          cases hpost
                        · rw [if_neg hown] at hpost
                          simp only [broadcast_sessions] at hpost
                          rw [(upd_aget_none_iff ..).mp hpost] at hls
                          cases hls

/-- Legacy session fixture: pid 1 is the recorded `ownerId` (first auto-joiner)
and pid 2 is a second, still-present member. -/
def fixLegacySess : Session :=
  { id := "sess_legacy", inviteCode := LEGACY_INVITE, ownerId := 1, ownerUserId := none,
    projectXml := "", linkPermission := "edit", sequenceNumber := 0,
    players := [(1, Player.mk 1 none "Player 1" "owner" 0 0 1),
                (2, Player.mk 2 none "Player 2" "owner" 0 0 2)] }

/-- Server state holding `fixLegacySess` with both members connected. -/
def fixLegacySt : ServerState :=
  { nextPlayerId := 3,
    sessions := [(LEGACY_INVITE, fixLegacySess)],
    clients := [(1, { playerId := 1, sessionId := some "sess_legacy" }),
                (2, { playerId := 2, sessionId := some "sess_legacy" })],
    openWs := [1, 2],
    outbox := [] }

/-- C5 (witness): the lifecycle theorem applied at the fixture: a `leave` by
socket 1 removes the legacy session, and the theorem attributes the removal to
a member of the legacy session whose departure empties the roster or who is
its recorded `ownerId` (here the latter: the roster was still non-empty). -/
theorem legacy_lifecycle_step_witness :
    ∃ ws client, aget fixLegacySt.clients ws = some client ∧
      client.sessionId = some fixLegacySess.id ∧
      ((∃ draws gsid, Event.message 1 InMsg.leaveMsg ([] : List Nat) "g" =
          Event.message ws InMsg.leaveMsg draws gsid) ∨
        Event.message 1 InMsg.leaveMsg ([] : List Nat) "g" = Event.disconnect ws) ∧
      (adel fixLegacySess.players client.playerId = [] ∨
        client.playerId = fixLegacySess.ownerId) :=
  (legacy_lifecycle_step fixLegacySt (Event.message 1 InMsg.leaveMsg [] "g")
    ⟨by decide, by decide, by decide, by decide⟩).2 fixLegacySess (by decide) (by decide)
